import Mathlib

/-!
Shallow embedding of src/avito_to_sheets.py (Avito metrics → Google Sheets
day reconciler).

The embedding models Python dictionaries coming from JSON as association
lists over a two-constructor value type (numbers and strings), network
endpoints as explicit oracle functions passed in as parameters, and the
spreadsheet as a list of rows of cell values (row 1 is the header row).
Exceptions raised by the Python code are modelled with Option / Except
results.  All definitions are executable.
-/

namespace Avito

/-- Model of a scalar Python value reaching this program from JSON: either a
number (int or float, modelled over Int since only summation and defaulting
occur) or a string. -/
inductive PyVal where
  | vnum (n : Int)
  | vstr (s : String)
deriving DecidableEq, Repr

/-- Python truthiness of a scalar value: 0 and the empty string are falsy. -/
def PyVal.truthy : PyVal → Bool
  | .vnum n => n != 0
  | .vstr s => s != ""

/-- Model of the Python expression "a or b" where a is an optional dict
lookup (None is falsy) and b is a present value. -/
def pyOrD (a : Option PyVal) (b : PyVal) : PyVal :=
  match a with
  | some v => if v.truthy then v else b
  | none => b

/-- Model of the Python expression "a or b" over two optional lookups. -/
def pyOr (a b : Option PyVal) : Option PyVal :=
  match a with
  | some v => if v.truthy then some v else b
  | none => b

/-- Model of Python int(x) on a scalar value: identity on numbers,
parse on strings (failure means a ValueError was raised). -/
def pyIntOf : PyVal → Option Int
  | .vnum n => some n
  | .vstr s => s.toInt?

/-- Model of Python int(x) where x may be None (int(None) raises, hence
none). -/
def pyToIntOpt (a : Option PyVal) : Option Int :=
  match a with
  | some v => pyIntOf v
  | none => none

/-- Decides whether a value is numeric, the Python
isinstance(val, (int, float)) test. -/
def PyVal.isNum : PyVal → Bool
  | .vnum _ => true
  | .vstr _ => false

/-- Model of comparing a scalar value against a string with Python ==
(a number never equals a string). -/
def pyEqStr : PyVal → String → Bool
  | .vstr s, t => s == t
  | .vnum _, _ => false

/-- Truthiness of an optional lookup (None is falsy). -/
def truthyOpt (a : Option PyVal) : Bool :=
  match a with
  | some v => v.truthy
  | none => false

/-- A JSON object as produced by the API, modelled as an association list
from field names to scalar values. -/
abbrev Record := List (String × PyVal)

/-- Lookup in an association list (first binding wins), the model of
Python dict.get returning None when absent. -/
def aget {α β : Type} [DecidableEq α] (l : List (α × β)) (k : α) : Option β :=
  (l.find? (fun p => p.1 = k)).map (fun p => p.2)

/-- Dictionary assignment d[k] = v on an association list: replaces the
first binding of k, or appends a new binding. -/
def aset {α β : Type} [DecidableEq α] : List (α × β) → α → β → List (α × β)
  | [], k, v => [(k, v)]
  | (k', v') :: t, k, v => if k' = k then (k, v) :: t else (k', v') :: aset t k v

/-- Lookup with a default, the model of Python dict.get(k, d). -/
def agetD {α β : Type} [DecidableEq α] (l : List (α × β)) (k : α) (d : β) : β :=
  (aget l k).getD d

theorem aget_aset_self {α β : Type} [DecidableEq α] (l : List (α × β)) (k : α) (v : β) :
    aget (aset l k v) k = some v := by
  induction l with
  | nil => simp [aget, aset, List.find?]
  | cons p t ih =>
    by_cases h : p.1 = k
    · simp [aset, h, aget, List.find?]
    · simp only [aset]
      rw [if_neg h]
      simpa [aget, List.find?, h] using ih

theorem aget_aset_ne {α β : Type} [DecidableEq α] (l : List (α × β)) (k k' : α) (v : β)
    (h : k' ≠ k) : aget (aset l k v) k' = aget l k' := by
  induction l with
  | nil => simp [aget, aset, List.find?, Ne.symm h]
  | cons p t ih =>
    by_cases hp : p.1 = k
    · simp [aset, hp, aget, List.find?, Ne.symm h, hp ▸ (Ne.symm h)]
    · simp only [aset]
      rw [if_neg hp]
      by_cases hq : p.1 = k'
      · simp [aget, List.find?, hq]
      · simpa [aget, List.find?, hq] using ih

/-- Key membership in an association list. -/
def memKey {α β : Type} [DecidableEq α] (l : List (α × β)) (k : α) : Bool :=
  (aget l k).isSome

theorem memKey_aset {α β : Type} [DecidableEq α] (l : List (α × β)) (k k' : α) (v : β) :
    memKey (aset l k v) k' = (memKey l k' || decide (k' = k)) := by
  by_cases h : k' = k
  · subst h
    simp [memKey, aget_aset_self]
  · simp [memKey, aget_aset_ne l k k' v h, h]

theorem keys_aset {α β : Type} [DecidableEq α] (l : List (α × β)) (k : α) (v : β) :
    (aset l k v).map Prod.fst =
      if k ∈ l.map Prod.fst then l.map Prod.fst else l.map Prod.fst ++ [k] := by
  induction l with
  | nil => simp [aset]
  | cons p t ih =>
    by_cases h : p.1 = k
    · simp [aset, h]
    · simp only [aset]
      rw [if_neg h]
      simp only [List.map_cons, List.mem_cons]
      rw [ih]
      by_cases hk : k ∈ t.map Prod.fst
      · simp [hk, h]
      · have hne : ¬ k = p.1 := fun h1 => h h1.symm
        simp [hk, hne]

theorem aget_isSome_iff_mem_keys {α β : Type} [DecidableEq α] (l : List (α × β)) (k : α) :
    (aget l k).isSome = true ↔ k ∈ l.map Prod.fst := by
  induction l with
  | nil => simp [aget]
  | cons p t ih =>
    by_cases h : p.1 = k
    · simp [aget, List.find?_cons, h]
    · have hd : (decide (p.1 = k)) = false := by simpa using h
      simp only [aget, List.find?_cons, hd, List.map_cons, List.mem_cons] at *
      constructor
      · intro hs
        exact Or.inr (ih.mp hs)
      · rintro (h1 | h2)
        · exact absurd h1.symm h
        · exact ih.mpr h2

/-! Profile-tier metrics fetcher, src/avito_to_sheets.py lines 177-246. -/

/-- Metric names requested from the profile statistics endpoint
(PROFILE_METRICS in the source). -/
def PROFILE_METRICS : List String :=
  [ "impressions", "views",
    "impressionsToViewsConversion",
    "contacts", "contactsShowPhone", "contactsMessenger",
    "contactsShowPhoneAndMessenger", "contactsSbcDiscount",
    "viewsToContactsConversion",
    "favorites",
    "averageViewCost", "averageContactCost",
    "allSpending", "spending", "presenceSpending",
    "promoSpending", "restSpending", "commission", "spendingBonus" ]

/-- The identifier or-chain of fetch_profile_stats_one_day:
it.get("itemId") or it.get("item_id") or it.get("itemID"). -/
def profIdVal (it : Record) : Option PyVal :=
  pyOr (aget it "itemId") (pyOr (aget it "item_id") (aget it "itemID"))

/-- The date or-chain of fetch_profile_stats_one_day:
it.get("date") or it.get("day") or it.get("period"). -/
def profDateVal (it : Record) : Option PyVal :=
  pyOr (aget it "date") (pyOr (aget it "day") (aget it "period"))

/-- Per-record retention test of fetch_profile_stats_one_day (lines
228-236): the record is appended to the output when the identifier chain
and the date chain are truthy and int() succeeds on the identifier value. -/
def profRetains (it : Record) : Bool :=
  truthyOpt (profIdVal it) && truthyOpt (profDateVal it)
    && (pyToIntOpt (profIdVal it)).isSome

/-- Output of fetch_profile_stats_one_day given the concatenated item
lists of all response pages (HTTP transport, pagination and the
result/items candidate-key probing are abstracted into the raw list). -/
def fetch_profile_out (raw : List Record) : List Record :=
  raw.filter profRetains

/-! Primary-tier aggregation in process_one_day, lines 403-418. -/

/-- State built by the primary-tier record loop: the active identifier
set (a Python set, modelled as an insertion-ordered duplicate-free list)
and the per-identifier metric aggregation dictionary. -/
structure AggState where
  active : List Int
  agg : List (Int × Record)
deriving DecidableEq, Repr

/-- Initial aggregation state. -/
def initAgg : AggState := ⟨[], []⟩

/-- Insertion into the modelled Python set of active identifiers. -/
def addActive (l : List Int) (i : Int) : List Int :=
  if i ∈ l then l else l ++ [i]

/-- One metric-key update of the aggregation target dictionary (lines
413-418): tgt[key] = tgt.get(key, 0) + val for numeric val — which
raises TypeError (modelled none) when the stored value is a string —
and tgt[key] = val for non-numeric val. -/
def updTgtKey (it : Record) (tgt : Record) (key : String) : Option Record :=
  let val := agetD it key (.vnum 0)
  match val with
  | .vnum b =>
    match agetD tgt key (.vnum 0) with
    | .vnum a => some (aset tgt key (.vnum (a + b)))
    | .vstr _ => none
  | .vstr s => some (aset tgt key (.vstr s))

/-- The inner for-key loop over a list of metric keys. -/
def updTgtKeys (it : Record) : List String → Record → Option Record
  | [], tgt => some tgt
  | k :: ks, tgt =>
    match updTgtKey it tgt k with
    | some t => updTgtKeys it ks t
    | none => none

/-- The date or-chain used by process_one_day itself (line 408):
it.get("date") or it.get("day") or "" — note it omits "period". -/
def recDate (it : Record) : PyVal :=
  pyOrD (aget it "date") (pyOrD (aget it "day") (.vstr ""))

/-- Processing of a single profile record by process_one_day (lines
406-418): read int(it.get("itemId")) — which may raise, modelled none —
skip the record when its date differs from the target date, otherwise
mark the identifier active and fold its metric values into the
aggregation dictionary. -/
def processRecord (dateStr : String) (st : AggState) (it : Record) : Option AggState :=
  match pyToIntOpt (aget it "itemId") with
  | none => none
  | some iid =>
    if pyEqStr (recDate it) dateStr then
      match updTgtKeys it PROFILE_METRICS (agetD st.agg iid []) with
      | some tgt' => some ⟨addActive st.active iid, aset st.agg iid tgt'⟩
      | none => none
    else some st

/-- The record loop of the primary tier (for it in prof). -/
def processPrimary (dateStr : String) : List Record → AggState → Option AggState
  | [], st => some st
  | it :: rest, st =>
    match processRecord dateStr st it with
    | some st' => processPrimary dateStr rest st'
    | none => none

/-! Listing detail endpoint (get_item_info, lines 165-174) and the
VAS promotional-state snapshot fields read from its response. -/

/-- One entry of the "vas" list of an item-info response.  The source
reads v.get("vas_id","") or "", v.get("finish_time") or "" and
v.get("schedule") or []; the or-defaults are pre-resolved here, so a
missing field is the empty string / empty list. -/
structure VasEntry where
  vasId : String
  finishTime : String
  schedule : List String
deriving DecidableEq, Repr

/-- The fields of an item-info response body that process_one_day reads:
info.get("title") or "" and info.get("vas") or [], with the or-defaults
pre-resolved. -/
structure ItemInfo where
  title : String
  vas : List VasEntry
deriving DecidableEq, Repr

/-- The empty dict returned by get_item_info on a 404 response. -/
def ItemInfo.empty : ItemInfo := ⟨"", []⟩

/-- An HTTP response of the item-info endpoint: final status code after
the transport-level retry policy, and the parsed body. -/
structure HttpResp where
  status : Nat
  body : ItemInfo
deriving DecidableEq, Repr

/-- Model of get_item_info (lines 165-174): a 404 yields the empty dict,
any other status of 400 or above raises (r.raise_for_status), and a
success returns the body. -/
def get_item_info (r : HttpResp) : Except Nat ItemInfo :=
  if r.status = 404 then .ok ItemInfo.empty
  else if 400 ≤ r.status then .error r.status
  else .ok r.body

/-- Default VAS flag dictionary built by the source. -/
def defaultFlags : List (String × Int) :=
  [("vip", 0), ("highlight", 0), ("pushup", 0), ("premium", 0), ("xl", 0)]

/-- Setting flags from a VAS list: for v in vas_list, if v.vas_id is a
known flag key, set it to 1. -/
def setFlagsFromVas (flags : List (String × Int)) (vl : List VasEntry) :
    List (String × Int) :=
  vl.foldl (fun f v => if memKey f v.vasId then aset f v.vasId 1 else f) flags

/-- vas_ids column: ",".join of the vas_id fields. -/
def vasIdsStr (vl : List VasEntry) : String :=
  String.intercalate "," (vl.map (fun v => v.vasId))

/-- vas_finish_time column: ",".join of the finish_time fields. -/
def vasFinishStr (vl : List VasEntry) : String :=
  String.intercalate "," (vl.map (fun v => v.finishTime))

/-- vas_next_schedule column: "|".join of the ","-joined schedules. -/
def vasSchedStr (vl : List VasEntry) : String :=
  String.intercalate "|" (vl.map (fun v => String.intercalate "," v.schedule))

/-! Row building.  Sheet cells hold scalar values; a row is a cell list. -/

abbrev Row := List PyVal
abbrev Grid := List Row

/-- Cache state threaded through the primary-tier row loop: the
cache_info dictionary plus a log of the identifiers actually sent to the
item-info endpoint (one entry per outgoing request, in order). -/
structure CacheSt where
  cache : List (Int × ItemInfo)
  calls : List Int
deriving DecidableEq, Repr

/-- The guarded fetch of the primary-tier loop: if iid not in
cache_info, call get_item_info and store the result. -/
def fetchCached (info : Int → HttpResp) (st : CacheSt) (iid : Int) :
    Except Nat CacheSt :=
  if memKey st.cache iid then .ok st
  else
    match get_item_info (info iid) with
    | .ok i => .ok ⟨aset st.cache iid i, st.calls ++ [iid]⟩
    | .error e => .error e

/-- Flag-column value: flags.get(key, 0). -/
def flagVal (flags : List (String × Int)) (k : String) : PyVal :=
  .vnum (agetD flags k 0)

/-- Metric-column value of the primary-tier row: m.get(key, 0). -/
def mval (m : Record) (k : String) : PyVal :=
  agetD m k (.vnum 0)

/-- The row literal built for one active listing by the primary tier
(lines 450-467), including the vas_list-guarded snapshot columns. -/
def mkPrimaryRow (dateStr : String) (iid : Int) (title : String) (m : Record)
    (vasList : List VasEntry) (flags0 : List (String × Int)) : Row :=
  let vids := if vasList.isEmpty then "" else vasIdsStr vasList
  let vfin := if vasList.isEmpty then "" else vasFinishStr vasList
  let vsch := if vasList.isEmpty then "" else vasSchedStr vasList
  let flags := if vasList.isEmpty then flags0 else setFlagsFromVas flags0 vasList
  [ .vstr dateStr, .vstr (toString iid), .vstr title,
    mval m "impressions", mval m "views",
    mval m "impressionsToViewsConversion",
    mval m "contacts", mval m "contactsShowPhone", mval m "contactsMessenger",
    mval m "contactsShowPhoneAndMessenger", mval m "contactsSbcDiscount",
    mval m "viewsToContactsConversion",
    mval m "favorites",
    mval m "averageViewCost", mval m "averageContactCost",
    .vnum 0, .vnum 0,
    mval m "allSpending", mval m "spending", mval m "presenceSpending",
    mval m "promoSpending", mval m "restSpending", mval m "commission",
    mval m "spendingBonus",
    .vstr vids, .vstr vfin, .vstr vsch,
    flagVal flags "vip", flagVal flags "highlight", flagVal flags "pushup",
    flagVal flags "premium", flagVal flags "xl" ]

/-- The title phase of the primary-tier loop (lines 422-430): take the
listing-directory title; when empty, fetch item info through the cache
and use the stripped response title. -/
def titlePhase (titles : List (Int × String)) (info : Int → HttpResp)
    (st : CacheSt) (iid : Int) : Except Nat (String × CacheSt) :=
  let t0 := agetD titles iid ""
  if t0 = "" then
    match fetchCached info st iid with
    | .ok st1 => .ok (((agetD st1.cache iid ItemInfo.empty).title).trim, st1)
    | .error e => .error e
  else .ok (t0, st)

/-- Building the row of one active listing in the primary tier (lines
420-468): title phase, then the unconditional cache-backed item-info
lookup for the VAS snapshot, then the row literal. -/
def buildRowPrimary (dateStr : String) (titles : List (Int × String))
    (vasFlags : List (Int × List (String × Int))) (info : Int → HttpResp)
    (st : CacheSt) (agg : List (Int × Record)) (iid : Int) :
    Except Nat (Row × CacheSt) :=
  match titlePhase titles info st iid with
  | .error e => .error e
  | .ok (title, st1) =>
    match fetchCached info st1 iid with
    | .error e => .error e
    | .ok st2 =>
      let vasList := (agetD st2.cache iid ItemInfo.empty).vas
      .ok (mkPrimaryRow dateStr iid title (agetD agg iid [])
             vasList (agetD vasFlags iid defaultFlags), st2)

/-- The primary-tier row loop over the sorted active identifiers. -/
def buildRowsPrimary (dateStr : String) (titles : List (Int × String))
    (vasFlags : List (Int × List (String × Int))) (info : Int → HttpResp) :
    List Int → CacheSt → List (Int × Record) → Except Nat (List Row × CacheSt)
  | [], st, _ => .ok ([], st)
  | iid :: rest, st, agg =>
    match buildRowPrimary dateStr titles vasFlags info st agg iid with
    | .error e => .error e
    | .ok (row, st1) =>
      match buildRowsPrimary dateStr titles vasFlags info rest st1 agg with
      | .error e => .error e
      | .ok (rows, st2) => .ok (row :: rows, st2)

/-! Insertion sort over Int, the model of Python sorted(...) on
identifier lists. -/

/-- Insertion of one element into a sorted list. -/
def insertSorted (x : Int) : List Int → List Int
  | [] => [x]
  | y :: t => if x ≤ y then x :: y :: t else y :: insertSorted x t

/-- Ascending sort of an identifier list. -/
def sortInts : List Int → List Int
  | [] => []
  | x :: t => insertSorted x (sortInts t)

/-! Fallback tier: stats_v1 responses and the active map (lines
472-529). -/

/-- One per-day stat entry of a stats_v1 response item.  The uniq fields
model s.get("uniqViews", 0) and s.get("uniqContacts", 0): none means the
field is absent (so the default 0 applies). -/
structure StatEntry where
  date : String
  uniqViews : Option PyVal
  uniqContacts : Option PyVal
deriving DecidableEq, Repr

/-- One item of a stats_v1 response: the identifier may sit under
"itemId" or "item_id", plus the per-day stat entries. -/
structure StatsItem where
  itemId : Option PyVal
  item_id : Option PyVal
  stats : List StatEntry
deriving DecidableEq, Repr

/-- Model of int(s.get(field, 0) or 0): default the lookup to 0, map
falsy values to 0, then apply int() — which may raise on a
non-numeric string, modelled none. -/
def v1Num (o : Option PyVal) : Option Int :=
  let x := o.getD (.vnum 0)
  pyIntOf (if x.truthy then x else .vnum 0)

/-- Aggregated fallback metrics of one listing (the active_map value
dictionary, restricted to its two keys). -/
structure V1Rec where
  uniqViews : Int
  uniqContacts : Int
deriving DecidableEq, Repr

/-- Folding the stat entries of one response item into the active map
(lines 485-489): each entry whose date equals the target date creates
the listing's aggregate on demand and adds the two uniq metrics. -/
def v1AddStats (dateStr : String) (iid : Int) :
    List StatEntry → List (Int × V1Rec) → Option (List (Int × V1Rec))
  | [], am => some am
  | s :: rest, am =>
    if s.date = dateStr then
      match v1Num s.uniqViews, v1Num s.uniqContacts with
      | some uv, some uc =>
        let rec0 := agetD am iid ⟨0, 0⟩
        v1AddStats dateStr iid rest
          (aset am iid ⟨rec0.uniqViews + uv, rec0.uniqContacts + uc⟩)
      | _, _ => none
    else v1AddStats dateStr iid rest am

/-- Folding the items of one stats_v1 response into the active map
(lines 480-489): falsy identifier chains are skipped, int() on the
identifier may raise (none). -/
def v1ProcessItems (dateStr : String) :
    List StatsItem → List (Int × V1Rec) → Option (List (Int × V1Rec))
  | [], am => some am
  | it :: rest, am =>
    let iidv := pyOr it.itemId it.item_id
    if truthyOpt iidv then
      match pyToIntOpt iidv with
      | some iid =>
        match v1AddStats dateStr iid it.stats am with
        | some am' => v1ProcessItems dateStr rest am'
        | none => none
      | none => none
    else v1ProcessItems dateStr rest am

/-- Structural core of the identifier batching; the fuel argument only
serves Lean termination and is supplied as the list length, which the
200-element strides can never exhaust. -/
def chunkBatchesAux : Nat → List Int → List (List Int)
  | _, [] => []
  | 0, _ :: _ => []
  | fuel + 1, a :: t => ((a :: t).take 200) :: chunkBatchesAux fuel ((a :: t).drop 200)

/-- Batching of the identifier list into chunks of 200 (line 476). -/
def chunkBatches (l : List Int) : List (List Int) :=
  chunkBatchesAux l.length l

/-- The batch loop building the fallback active map: each batch is sent
to stats_v1 — whose body truncates itemIds to the first 200 — and the
response items, supplied by the oracle, are folded in. -/
def buildActiveMapV1 (v1 : List Int → List StatsItem) (dateStr : String) :
    List (List Int) → List (Int × V1Rec) → Option (List (Int × V1Rec))
  | [], am => some am
  | b :: rest, am =>
    match v1ProcessItems dateStr (v1 (b.take 200)) am with
    | some am' => buildActiveMapV1 v1 dateStr rest am'
    | none => none

/-- The row literal built for one active listing by the fallback tier
(lines 512-528).  Unlike the primary tier, the VAS columns carry no
emptiness guard and the flags start from the default dictionary. -/
def mkFallbackRow (dateStr : String) (iid : Int) (title : String)
    (vals : V1Rec) (vasList : List VasEntry) : Row :=
  let flags := setFlagsFromVas defaultFlags vasList
  [ .vstr dateStr, .vstr (toString iid), .vstr title,
    .vnum 0, .vnum 0, .vnum 0,
    .vnum 0, .vnum 0, .vnum 0,
    .vnum 0, .vnum 0,
    .vnum 0,
    .vnum 0,
    .vnum 0, .vnum 0,
    .vnum vals.uniqViews, .vnum vals.uniqContacts,
    .vnum 0, .vnum 0, .vnum 0, .vnum 0, .vnum 0, .vnum 0, .vnum 0,
    .vstr (vasIdsStr vasList), .vstr (vasFinishStr vasList),
    .vstr (vasSchedStr vasList),
    flagVal flags "vip", flagVal flags "highlight", flagVal flags "pushup",
    flagVal flags "premium", flagVal flags "xl" ]

/-- Building the row of one active listing in the fallback tier (lines
494-528): an uncached item-info fetch for a missing title, then a second
unconditional item-info fetch for the VAS snapshot.  The call log
records each outgoing request. -/
def buildRowFallback (dateStr : String) (titles : List (Int × String))
    (info : Int → HttpResp) (callLog : List Int) (iid : Int) (vals : V1Rec) :
    Except Nat (Row × List Int) :=
  let t0 := agetD titles iid ""
  let titleStep : Except Nat (String × List Int) :=
    if t0 = "" then
      match get_item_info (info iid) with
      | .ok i => .ok (i.title.trim, callLog ++ [iid])
      | .error e => .error e
    else .ok (t0, callLog)
  match titleStep with
  | .error e => .error e
  | .ok (title, log1) =>
    match get_item_info (info iid) with
    | .error e => .error e
    | .ok i =>
      .ok (mkFallbackRow dateStr iid title vals i.vas, log1 ++ [iid])

/-- The fallback-tier row loop over the sorted active-map keys. -/
def buildRowsFallback (dateStr : String) (titles : List (Int × String))
    (info : Int → HttpResp) :
    List Int → List Int → List (Int × V1Rec) → Except Nat (List Row × List Int)
  | [], callLog, _ => .ok ([], callLog)
  | iid :: rest, callLog, am =>
    match buildRowFallback dateStr titles info callLog iid (agetD am iid ⟨0, 0⟩) with
    | .error e => .error e
    | .ok (row, log1) =>
      match buildRowsFallback dateStr titles info rest log1 am with
      | .error e => .error e
      | .ok (rows, log2) => .ok (row :: rows, log2)

/-! Tier selection (lines 390-403 and 472-478). -/

/-- Outcome of the profile-stats fetch attempt of one day: the record
list produced by fetch_profile_stats_one_day, or an HTTPError caught by
the surrounding try/except. -/
inductive FetchResult where
  | ok (recs : List Record)
  | httpError
deriving DecidableEq, Repr

/-- The prof variable after the try/except: None on an HTTPError. -/
def profOf : FetchResult → Option (List Record)
  | .ok recs => some recs
  | .httpError => none

/-- Python truthiness of prof: None and the empty list are falsy.  The
source gates the primary branch on "if prof:" and the fallback branch on
"if not prof:". -/
def profTruthy : Option (List Record) → Bool
  | some l => !l.isEmpty
  | none => false

/-- Whether the fallback tier runs for a date, the "if not prof:" test. -/
def usesFallbackTier (fr : FetchResult) : Bool :=
  !profTruthy (profOf fr)

/-- Errors a day's processing can raise: an HTTP status surfaced by
raise_for_status, or a TypeError / ValueError from int() or from adding
a number to a stored string. -/
inductive PErr where
  | http (status : Nat)
  | typeErr
deriving DecidableEq, Repr

/-- Result of the row-computation phases (a) and (b) of one day: the
computed rows, the ascending active identifier list they were built
from, and the item-info call log. -/
structure DayOut where
  rows : List Row
  activeSorted : List Int
  calls : List Int
deriving DecidableEq, Repr

/-- The primary branch of process_one_day: aggregate the profile
records, then build one row per sorted active identifier. -/
def primaryCompute (titles : List (Int × String))
    (vasFlags : List (Int × List (String × Int))) (info : Int → HttpResp)
    (recs : List Record) (dateStr : String) : Except PErr DayOut :=
  match processPrimary dateStr recs initAgg with
  | none => .error .typeErr
  | some st =>
    match buildRowsPrimary dateStr titles vasFlags info (sortInts st.active) ⟨[], []⟩ st.agg with
    | .error e => .error (.http e)
    | .ok (rows, cst) => .ok ⟨rows, sortInts st.active, cst.calls⟩

/-- The fallback branch of process_one_day: build the active map from
batched stats_v1 calls, then one row per sorted active-map key. -/
def fallbackCompute (titles : List (Int × String)) (info : Int → HttpResp)
    (v1 : List Int → List StatsItem) (itemIds : List Int) (dateStr : String) :
    Except PErr DayOut :=
  match buildActiveMapV1 v1 dateStr (chunkBatches itemIds) [] with
  | none => .error .typeErr
  | some am =>
    match buildRowsFallback dateStr titles info (sortInts (am.map Prod.fst)) [] am with
    | .error e => .error (.http e)
    | .ok (rows, callLog) => .ok ⟨rows, sortInts (am.map Prod.fst), callLog⟩

/-- Phases (a) and (b) of process_one_day: primary tier when prof is
truthy, fallback tier otherwise. -/
def computeRowsOut (titles : List (Int × String))
    (vasFlags : List (Int × List (String × Int))) (info : Int → HttpResp)
    (v1 : List Int → List StatsItem) (itemIds : List Int)
    (fr : FetchResult) (dateStr : String) : Except PErr DayOut :=
  if profTruthy (profOf fr) then
    primaryCompute titles vasFlags info ((profOf fr).getD []) dateStr
  else
    fallbackCompute titles info v1 itemIds dateStr

/-! Sink model (connect_sheet header logic, clear_date, and phase (c) of
process_one_day, lines 266-379 and 531-564).  The grid is the worksheet
content: element 0 is sheet row 1 (the header row), element 1 is sheet
row 2 (the alias row), the rest are data rows. -/

/-- Sink header schema (DATA_HEADERS in the source). -/
def DATA_HEADERS : List String :=
  [ "date", "item_id", "title",
    "impressions", "views",
    "impressionsToViewsConversion",
    "contacts", "contactsShowPhone", "contactsMessenger",
    "contactsShowPhoneAndMessenger", "contactsSbcDiscount",
    "viewsToContactsConversion",
    "favorites",
    "averageViewCost", "averageContactCost",
    "uniqViews", "uniqContacts",
    "allSpending", "spending", "presenceSpending",
    "promoSpending", "restSpending", "commission", "spendingBonus",
    "vas_ids", "vas_finish_time", "vas_next_schedule",
    "vas_flag_vip", "vas_flag_highlight", "vas_flag_pushup",
    "vas_flag_premium", "vas_flag_xl" ]

/-- Russian column labels for the alias row (HEADER_ALIASES). -/
def HEADER_ALIASES : List (String × String) :=
  [ ("date", "Дата"),
    ("item_id", "Номер объявления"),
    ("title", "Название объявления"),
    ("impressions", "Показы"),
    ("views", "Просмотры"),
    ("impressionsToViewsConversion", "Конверсия показы→просмотры, %"),
    ("contacts", "Контакты всего"),
    ("contactsShowPhone", "Посмотрели телефон"),
    ("contactsMessenger", "Написали в чат"),
    ("contactsShowPhoneAndMessenger", "Телефон и чат"),
    ("contactsSbcDiscount", "Скидка в чате (отклик)"),
    ("viewsToContactsConversion", "Конверсия просмотры→контакты, %"),
    ("favorites", "Добавили в избранное"),
    ("averageViewCost", "Средняя цена просмотра"),
    ("averageContactCost", "Средняя цена контакта"),
    ("uniqViews", "Просмотры (fallback)"),
    ("uniqContacts", "Контакты (fallback)"),
    ("allSpending", "Все расходы"),
    ("spending", "Расходы на объявления"),
    ("presenceSpending", "Размещение и целевые"),
    ("promoSpending", "Продвижение"),
    ("restSpending", "Прочие расходы"),
    ("commission", "Комиссия"),
    ("spendingBonus", "Списано бонусов"),
    ("vas_ids", "Активные услуги (vas_id)"),
    ("vas_finish_time", "Окончание услуг"),
    ("vas_next_schedule", "График следующего включения"),
    ("vas_flag_vip", "Флаг VAS: vip"),
    ("vas_flag_highlight", "Флаг VAS: highlight"),
    ("vas_flag_pushup", "Флаг VAS: pushup"),
    ("vas_flag_premium", "Флаг VAS: premium"),
    ("vas_flag_xl", "Флаг VAS: xl") ]

/-- String form of a cell as row_values returns it. -/
def cellStr : PyVal → String
  | .vstr s => s
  | .vnum n => toString n

/-- The header keys of sheet row 1 (ws.row_values(1)). -/
def headerRow (g : Grid) : List String :=
  (g.headD []).map cellStr

/-- The header-completion loop (lines 538-541): for h in DATA_HEADERS,
append h to the headers when missing. -/
def ensureHeaders (h : List String) : List String :=
  DATA_HEADERS.foldl (fun acc x => if x ∈ acc then acc else acc ++ [x]) h

/-- Overwriting sheet row 1 (ws.update("1:1", ...)). -/
def setRow1 (g : Grid) (r : Row) : Grid :=
  match g with
  | [] => [r]
  | _ :: t => r :: t

/-- Overwriting sheet row 2 (ws.update("2:2", ...) after the resize that
guarantees at least two rows). -/
def setRow2 (g : Grid) (r : Row) : Grid :=
  match g with
  | [] => [[], r]
  | [a] => [a, r]
  | a :: _ :: t => a :: r :: t

/-- The alias row computed from the header keys. -/
def aliasRowOf (h : List String) : Row :=
  h.map (fun k => PyVal.vstr (agetD HEADER_ALIASES k k))

/-- Model of ensure_alias_row (lines 330-344): no-op on an empty header,
otherwise rewrite sheet row 2 with the aliases. -/
def ensure_alias_row (g : Grid) : Grid :=
  let h := headerRow g
  if h.isEmpty then g else setRow2 g (aliasRowOf h)

/-- The header phase of process_one_day (lines 537-546): complete the
header keys and, only when something was missing, rewrite rows 1 and 2. -/
def ensureGrid (g : Grid) : Grid :=
  let h := headerRow g
  let h' := ensureHeaders h
  if h' = h then g
  else ensure_alias_row (setRow1 g (h'.map PyVal.vstr))

/-- Whether a cell of column 1 matches the target date string
(ws.findall(date_str, in_column=1)); an absent cell is the empty
string. -/
def rowMatches (r : Row) (d : String) : Bool :=
  pyEqStr (r.headD (.vstr "")) d

/-- The 1-based sheet-row indices whose column 1 matches, in ascending
order, as findall returns them. -/
def findMatchRows (g : Grid) (d : String) : List Nat :=
  (List.range g.length).filterMap
    (fun i => if rowMatches ((g.get? i).getD []) d then some (i + 1) else none)

/-- Deletion of the 1-based sheet row r (ws.delete_rows(r)). -/
def deleteRowIdx (g : Grid) (r : Nat) : Grid :=
  g.take (r - 1) ++ g.drop r

/-- Model of clear_date (lines 373-379): find the matching rows, then
delete them in descending row order, skipping the header row. -/
def clear_date (g : Grid) (d : String) : Grid :=
  ((findMatchRows g d).reverse).foldl
    (fun acc r => if 1 < r then deleteRowIdx acc r else acc) g

/-- Width normalization of one outgoing row (lines 553-560): pad with
empty cells or truncate to the header width. -/
def normWidth (w : Nat) (r : Row) : Row :=
  if r.length < w then r ++ List.replicate (w - r.length) (PyVal.vstr "")
  else r.take w

/-- Phase (c) of process_one_day (lines 531-563): skipped entirely on an
empty row set; otherwise complete the headers, clear the date, and
append the width-normalized rows. -/
def writePhase (g : Grid) (dateStr : String) (rows : List Row) : Grid :=
  if rows.isEmpty then g
  else
    let g1 := ensureGrid g
    let g2 := clear_date g1 dateStr
    let w := (headerRow g2).length
    g2 ++ rows.map (normWidth w)

/-- One full day of processing: phases (a), (b) and (c); returns the
resulting grid and the item-info call log of the day. -/
def process_one_day (titles : List (Int × String))
    (vasFlags : List (Int × List (String × Int))) (info : Int → HttpResp)
    (v1 : List Int → List StatsItem) (itemIds : List Int)
    (fr : FetchResult) (dateStr : String) (g : Grid) :
    Except PErr (Grid × List Int) :=
  match computeRowsOut titles vasFlags info v1 itemIds fr dateStr with
  | .error e => .error e
  | .ok dout => .ok (writePhase g dateStr dout.rows, dout.calls)

/-- The driver loop of main over an ascending date range: each day is
processed to completion before the next; an error aborts the run.  Each
day carries its own profile-fetch outcome.  The combined item-info call
log of the whole run is returned. -/
def runDays (titles : List (Int × String))
    (vasFlags : List (Int × List (String × Int))) (info : Int → HttpResp)
    (v1 : List Int → List StatsItem) (itemIds : List Int) :
    List (String × FetchResult) → Grid → Except PErr (Grid × List Int)
  | [], g => .ok (g, [])
  | (d, fr) :: rest, g =>
    match process_one_day titles vasFlags info v1 itemIds fr d g with
    | .error e => .error e
    | .ok (g1, callLog) =>
      match runDays titles vasFlags info v1 itemIds rest g1 with
      | .error e => .error e
      | .ok (g2, callLog2) => .ok (g2, callLog ++ callLog2)

/-! Listing enumeration (list_items_with_titles, lines 95-163).  The
HTTP layer — including the secondary URL tried on a 404 and the probing
of candidate resource keys — is abstracted into a page oracle mapping
the 1-based page number to the resource list of that page. -/

/-- Identifier collection from one page of resources (lines 133-141):
x.get("id") or x.get("item_id"), skip falsy values, skip values int()
rejects. -/
def collectPageIds (resources : List Record) : List Int :=
  resources.filterMap (fun x =>
    let iid := pyOr (aget x "id") (aget x "item_id")
    if truthyOpt iid then pyToIntOpt iid else none)

/-- Result of the pagination loop: the identifiers collected in request
order and the page numbers actually requested. -/
structure PageResult where
  ids : List Int
  queried : List Nat
deriving DecidableEq, Repr

/-- The pagination loop (lines 103-159): request a page, stop on an
empty resource list, collect identifiers, stop when the page is shorter
than per_page, advance, and stop once the page counter would pass the
hard ceiling of 200.  The fuel argument only serves Lean termination;
the source loop already stops after at most 200 pages, and the canonical
entry point below supplies fuel 200 from page 1, which the guard makes
unreachable at zero. -/
def listPagesLoop (pages : Nat → List Record) (perPage : Nat) :
    Nat → Nat → PageResult
  | 0, _ => ⟨[], []⟩
  | fuel + 1, page =>
    let resources := pages page
    if resources.isEmpty then ⟨[], [page]⟩
    else
      let ids := collectPageIds resources
      if resources.length < perPage then ⟨ids, [page]⟩
      else if 200 < page + 1 then ⟨ids, [page]⟩
      else
        let r := listPagesLoop pages perPage fuel (page + 1)
        ⟨ids ++ r.ids, page :: r.queried⟩

/-- The pagination run as list_items_with_titles performs it, from
page 1. -/
def listItemsRun (pages : Nat → List Record) (perPage : Nat) : PageResult :=
  listPagesLoop pages perPage 200 1

/-- The identifier list returned by list_items_with_titles:
sorted(set(ids)) (line 161). -/
def list_items_ids (pages : Nat → List Record) (perPage : Nat) : List Int :=
  sortInts (listItemsRun pages perPage).ids.dedup

/-! Properties of the insertion sort. -/

theorem insertSorted_perm (x : Int) (l : List Int) :
    List.Perm (insertSorted x l) (x :: l) := by
  induction l with
  | nil => simp [insertSorted]
  | cons y t ih =>
    simp only [insertSorted]
    by_cases h : x ≤ y
    · simp [h]
    · rw [if_neg h]
      exact (ih.cons y).trans (List.Perm.swap x y t)

theorem sortInts_perm (l : List Int) : List.Perm (sortInts l) l := by
  induction l with
  | nil => simp [sortInts]
  | cons x t ih =>
    exact (insertSorted_perm x (sortInts t)).trans (ih.cons x)

theorem sortInts_nodup (l : List Int) (h : l.Nodup) : (sortInts l).Nodup :=
  ((sortInts_perm l).nodup_iff).mpr h

theorem sortInts_length (l : List Int) : (sortInts l).length = l.length :=
  (sortInts_perm l).length_eq

theorem mem_sortInts (l : List Int) (x : Int) : x ∈ sortInts l ↔ x ∈ l :=
  (sortInts_perm l).mem_iff

theorem insertSorted_sorted (x : Int) (l : List Int)
    (h : List.Sorted (· ≤ ·) l) : List.Sorted (· ≤ ·) (insertSorted x l) := by
  induction l with
  | nil => simp [insertSorted]
  | cons y t ih =>
    simp only [insertSorted]
    by_cases hxy : x ≤ y
    · rw [if_pos hxy]
      refine List.sorted_cons.mpr ⟨?_, h⟩
      intro b hb
      rcases List.mem_cons.mp hb with hb | hb
      · exact hb ▸ hxy
      · exact le_trans hxy (List.rel_of_sorted_cons h b hb)
    · rw [if_neg hxy]
      refine List.sorted_cons.mpr ⟨?_, ih (List.sorted_cons.mp h).2⟩
      intro b hb
      rcases List.mem_cons.mp ((insertSorted_perm x t).mem_iff.mp hb) with hb | hb
      · exact hb ▸ (le_of_not_le hxy)
      · exact List.rel_of_sorted_cons h b hb

theorem sortInts_sorted (l : List Int) : List.Sorted (· ≤ ·) (sortInts l) := by
  induction l with
  | nil => simp [sortInts]
  | cons x t ih => exact insertSorted_sorted x (sortInts t) ih

/-! Characterization of clear_date: deleting the matching rows in
descending index order amounts to filtering them out of the data
region, leaving sheet row 1 in place. -/

/-- Proof helper: the same deletion fold without the header guard. -/
def delAll (g : Grid) (idxs : List Nat) : Grid :=
  idxs.foldl deleteRowIdx g

theorem mem_findMatchRows_pos (g : Grid) (d : String) (r : Nat)
    (h : r ∈ findMatchRows g d) : 1 ≤ r := by
  simp only [findMatchRows, List.mem_filterMap] at h
  obtain ⟨i, _, hi⟩ := h
  by_cases hm : rowMatches ((g.get? i).getD []) d
  · rw [if_pos hm] at hi
    obtain rfl : i + 1 = r := Option.some.inj hi
    omega
  · rw [if_neg hm] at hi
    exact absurd hi (by simp)

theorem findMatchRows_cons (x : Row) (t : Grid) (d : String) :
    findMatchRows (x :: t) d =
      (if rowMatches x d then [1] else []) ++ (findMatchRows t d).map (· + 1) := by
  simp only [findMatchRows, List.length_cons]
  rw [List.range_succ_eq_map]
  rw [List.filterMap_cons]
  have hmap : ∀ (f : Nat → Option Nat),
      List.filterMap f ((List.range t.length).map Nat.succ)
        = List.filterMap (fun i => f (Nat.succ i)) (List.range t.length) := by
    intro f
    rw [List.filterMap_map]
    rfl
  have hfun : (fun i =>
        if rowMatches (((x :: t).get? (Nat.succ i)).getD []) d = true
        then some (Nat.succ i + 1) else none)
      = (fun i => Option.map (· + 1)
          (if rowMatches ((t.get? i).getD []) d = true then some (i + 1) else none)) := by
    funext i
    by_cases h : rowMatches ((t.get? i).getD []) d
    · simp [List.get?_cons_succ, h]
    · simp [List.get?_cons_succ, h]
  by_cases hm : rowMatches x d
  · simp only [List.get?, Option.getD_some, hm, if_pos, List.singleton_append]
    congr 1
    rw [hmap, hfun, ← List.map_filterMap]
  · simp only [List.get?, Option.getD_some, hm, if_neg, Bool.false_eq_true,
      if_false, List.nil_append]
    rw [hmap, hfun, ← List.map_filterMap]

theorem deleteRowIdx_cons (x : Row) (t : Grid) (r : Nat) (h : 1 ≤ r) :
    deleteRowIdx (x :: t) (r + 1) = x :: deleteRowIdx t r := by
  simp only [deleteRowIdx, Nat.add_sub_cancel]
  obtain ⟨k, rfl⟩ : ∃ k, r = k + 1 := ⟨r - 1, by omega⟩
  simp [List.take_succ_cons, List.drop_succ_cons]

theorem delAll_shift (idxs : List Nat) (x : Row) (t : Grid)
    (h : ∀ r ∈ idxs, 1 ≤ r) :
    delAll (x :: t) (idxs.map (· + 1)) = x :: delAll t idxs := by
  induction idxs generalizing t with
  | nil => rfl
  | cons r rest ih =>
    simp only [List.map_cons, delAll, List.foldl_cons]
    rw [deleteRowIdx_cons x t r (h r (by simp))]
    simpa [delAll] using ih (deleteRowIdx t r) (fun r' hr' => h r' (by simp [hr']))

theorem delAll_findMatch (t : Grid) (d : String) :
    delAll t ((findMatchRows t d).reverse) = t.filter (fun r => !rowMatches r d) := by
  induction t with
  | nil => rfl
  | cons x s ih =>
    rw [findMatchRows_cons]
    by_cases hm : rowMatches x d
    · rw [if_pos hm]
      rw [List.reverse_append]
      have hrev : (List.map (· + 1) (findMatchRows s d)).reverse
          = ((findMatchRows s d).reverse).map (· + 1) := by
        rw [List.reverse_map]
      simp only [List.reverse_singleton, hrev]
      have : delAll (x :: s) (((findMatchRows s d).reverse).map (· + 1) ++ [1])
          = delAll (delAll (x :: s) (((findMatchRows s d).reverse).map (· + 1))) [1] := by
        simp [delAll, List.foldl_append]
      rw [this]
      rw [delAll_shift _ x s (fun r hr => mem_findMatchRows_pos s d r (by
        simpa using hr))]
      rw [ih]
      simp [delAll, deleteRowIdx, List.filter_cons, hm]
    · rw [if_neg hm]
      simp only [List.nil_append]
      have hrev : (List.map (· + 1) (findMatchRows s d)).reverse
          = ((findMatchRows s d).reverse).map (· + 1) := by
        rw [List.reverse_map]
      rw [hrev]
      rw [delAll_shift _ x s (fun r hr => mem_findMatchRows_pos s d r (by
        simpa using hr))]
      rw [ih]
      simp [List.filter_cons, hm]

theorem guardedFold_shift (idxs : List Nat) (x : Row) (t : Grid)
    (h : ∀ r ∈ idxs, 1 ≤ r) :
    (idxs.map (· + 1)).foldl
        (fun acc r => if 1 < r then deleteRowIdx acc r else acc) (x :: t)
      = x :: delAll t idxs := by
  induction idxs generalizing t with
  | nil => rfl
  | cons r rest ih =>
    simp only [List.map_cons, List.foldl_cons, delAll]
    have h1 : 1 ≤ r := h r (by simp)
    rw [if_pos (by omega : 1 < r + 1)]
    rw [deleteRowIdx_cons x t r h1]
    simpa [delAll] using
      ih (deleteRowIdx t r) (fun r' hr' => h r' (by simp [hr']))

/-- clear_date keeps sheet row 1 and removes exactly the matching rows
below it. -/
theorem clear_date_eq (g : Grid) (d : String) :
    clear_date g d =
      match g with
      | [] => []
      | x :: t => x :: t.filter (fun r => !rowMatches r d) := by
  cases g with
  | nil => rfl
  | cons x t =>
    simp only [clear_date]
    rw [findMatchRows_cons]
    by_cases hm : rowMatches x d
    · rw [if_pos hm]
      rw [List.reverse_append, List.reverse_singleton, List.reverse_map]
      rw [List.foldl_append]
      rw [guardedFold_shift _ x t (fun r hr => mem_findMatchRows_pos t d r (by
        simpa using hr))]
      rw [delAll_findMatch]
      simp
    · rw [if_neg hm]
      rw [List.nil_append, List.reverse_map]
      rw [guardedFold_shift _ x t (fun r hr => mem_findMatchRows_pos t d r (by
        simpa using hr))]
      rw [delAll_findMatch]

/-! Properties of the header-completion loop. -/

theorem ensureFold_extends (l : List String) (acc : List String) :
    ∃ e, l.foldl (fun acc x => if x ∈ acc then acc else acc ++ [x]) acc = acc ++ e := by
  induction l generalizing acc with
  | nil => exact ⟨[], by simp⟩
  | cons x t ih =>
    simp only [List.foldl_cons]
    by_cases h : x ∈ acc
    · rw [if_pos h]
      exact ih acc
    · rw [if_neg h]
      obtain ⟨e, he⟩ := ih (acc ++ [x])
      exact ⟨[x] ++ e, by simpa using he⟩

theorem ensureFold_mem_of_mem_acc (l : List String) (acc : List String) (x : String)
    (h : x ∈ acc) :
    x ∈ l.foldl (fun acc y => if y ∈ acc then acc else acc ++ [y]) acc := by
  obtain ⟨e, he⟩ := ensureFold_extends l acc
  rw [he]
  exact List.mem_append_left e h

theorem ensureFold_mem (l : List String) (x : String) :
    ∀ acc, x ∈ l →
      x ∈ l.foldl (fun acc y => if y ∈ acc then acc else acc ++ [y]) acc := by
  induction l with
  | nil =>
    intro acc h
    exact absurd h (List.not_mem_nil x)
  | cons y t ih =>
    intro acc h
    simp only [List.foldl_cons]
    rcases List.mem_cons.mp h with rfl | hx
    · by_cases hy : x ∈ acc
      · rw [if_pos hy]
        exact ensureFold_mem_of_mem_acc t acc x hy
      · rw [if_neg hy]
        exact ensureFold_mem_of_mem_acc t (acc ++ [x]) x (by simp)
    · by_cases hy : y ∈ acc
      · rw [if_pos hy]
        exact ih acc hx
      · rw [if_neg hy]
        exact ih (acc ++ [y]) hx

theorem ensureFold_fixed (l : List String) (acc : List String)
    (h : ∀ x ∈ l, x ∈ acc) :
    l.foldl (fun acc y => if y ∈ acc then acc else acc ++ [y]) acc = acc := by
  induction l with
  | nil => rfl
  | cons y t ih =>
    simp only [List.foldl_cons]
    rw [if_pos (h y (by simp))]
    exact ih (fun x hx => h x (by simp [hx]))

theorem mem_ensureHeaders_of_data (h : List String) (x : String)
    (hx : x ∈ DATA_HEADERS) : x ∈ ensureHeaders h :=
  ensureFold_mem DATA_HEADERS x h hx

theorem ensureHeaders_idem (h : List String) :
    ensureHeaders (ensureHeaders h) = ensureHeaders h :=
  ensureFold_fixed DATA_HEADERS (ensureHeaders h)
    (fun x hx => mem_ensureHeaders_of_data h x hx)

theorem ensureHeaders_of_complete (h : List String)
    (hc : ∀ x ∈ DATA_HEADERS, x ∈ h) : ensureHeaders h = h :=
  ensureFold_fixed DATA_HEADERS h hc

theorem length_ensureHeaders_pos (h : List String) :
    1 ≤ (ensureHeaders h).length :=
  List.length_pos.mpr
    (List.ne_nil_of_mem (mem_ensureHeaders_of_data h "date" (by simp [DATA_HEADERS])))

/-! The grid after the header phase. -/

theorem cellStr_vstr_map (h : List String) : (h.map PyVal.vstr).map cellStr = h := by
  induction h with
  | nil => rfl
  | cons a t ih => simp [cellStr, ih]

theorem headD_setRow1 (g : Grid) (r : Row) : (setRow1 g r).headD [] = r := by
  cases g <;> rfl

theorem headerRow_setRow1 (g : Grid) (h : List String) :
    headerRow (setRow1 g (h.map PyVal.vstr)) = h := by
  simp only [headerRow, headD_setRow1]
  exact cellStr_vstr_map h

theorem headD_setRow2 (g : Grid) (r : Row) :
    (setRow2 g r).headD [] = g.headD [] := by
  cases g with
  | nil => rfl
  | cons a t => cases t <;> rfl

theorem headerRow_setRow2 (g : Grid) (r : Row) :
    headerRow (setRow2 g r) = headerRow g := by
  simp only [headerRow, headD_setRow2]

theorem headerRow_ensure_alias_row (g : Grid) :
    headerRow (ensure_alias_row g) = headerRow g := by
  simp only [ensure_alias_row]
  by_cases he : (headerRow g).isEmpty
  · rw [if_pos he]
  · rw [if_neg he]
    exact headerRow_setRow2 g _

theorem headerRow_ensureGrid (g : Grid) :
    headerRow (ensureGrid g) = ensureHeaders (headerRow g) := by
  by_cases hc : ensureHeaders (headerRow g) = headerRow g
  · simp only [ensureGrid, hc, if_pos]
  · simp only [ensureGrid, hc, if_neg, ite_false]
    rw [headerRow_ensure_alias_row, headerRow_setRow1]

theorem ensureGrid_ne_nil (g : Grid) : ensureGrid g ≠ [] := by
  intro hnil
  have h1 := headerRow_ensureGrid g
  rw [hnil] at h1
  have h2 : headerRow ([] : Grid) = [] := rfl
  rw [h2] at h1
  have := mem_ensureHeaders_of_data (headerRow g) "date" (by simp [DATA_HEADERS])
  rw [← h1] at this
  exact absurd this (List.not_mem_nil _)

/-! The row set of the sink for a date: the data-region rows (below
sheet row 1) whose date column equals the date. -/

/-- All rows below sheet row 1 whose column 1 equals the date string. -/
def rowsForDate (g : Grid) (d : String) : List Row :=
  (g.drop 1).filter (fun r => rowMatches r d)

/-- The header width used for normalization in the write phase. -/
def headerWidth (g : Grid) : Nat :=
  (ensureHeaders (headerRow g)).length

theorem clear_date_headD (g : Grid) (d : String) :
    (clear_date g d).headD [] = g.headD [] := by
  rw [clear_date_eq]
  cases g <;> rfl

theorem headerRow_clear_date (g : Grid) (d : String) :
    headerRow (clear_date g d) = headerRow g := by
  simp only [headerRow, clear_date_headD]

theorem clear_date_drop (g : Grid) (d : String) :
    (clear_date g d).drop 1 = (g.drop 1).filter (fun r => !rowMatches r d) := by
  rw [clear_date_eq]
  cases g <;> simp

theorem clear_date_ne_nil (g : Grid) (d : String) (h : g ≠ []) :
    clear_date g d ≠ [] := by
  rw [clear_date_eq]
  cases g with
  | nil => exact absurd rfl h
  | cons x t => simp

theorem normWidth_matches (w : Nat) (r : Row) (c : PyVal) (d : String)
    (hw : 1 ≤ w) (hr : r.head? = some c) (hm : pyEqStr c d = true) :
    rowMatches (normWidth w r) d = true := by
  cases r with
  | nil => exact absurd hr (by simp)
  | cons a rest =>
    have hac : c = a := by simpa using hr.symm
    subst hac
    simp only [normWidth]
    by_cases hl : (c :: rest).length < w
    · rw [if_pos hl]
      simpa [rowMatches] using hm
    · rw [if_neg hl]
      obtain ⟨k, rfl⟩ : ∃ k, w = k + 1 := ⟨w - 1, by omega⟩
      simpa [rowMatches, List.take_succ_cons] using hm

theorem drop_one_append (l1 l2 : Grid) (h : l1 ≠ []) :
    (l1 ++ l2).drop 1 = l1.drop 1 ++ l2 := by
  cases l1 with
  | nil => exact absurd rfl h
  | cons x t => simp

/-- The write phase on a non-empty row set, unfolded. -/
theorem writePhase_nonempty (g : Grid) (d : String) (rows : List Row)
    (hne : rows ≠ []) :
    writePhase g d rows =
      clear_date (ensureGrid g) d ++ rows.map (normWidth (headerWidth g)) := by
  simp only [writePhase, List.isEmpty_iff]
  rw [if_neg hne]
  have hw : headerRow (clear_date (ensureGrid g) d) = ensureHeaders (headerRow g) := by
    rw [headerRow_clear_date, headerRow_ensureGrid]
  rw [hw]
  rfl

/-- After a non-empty write, the sink's row set for the date is exactly
the width-normalized computed rows. -/
theorem rowsForDate_writePhase (g : Grid) (d : String) (rows : List Row)
    (hne : rows ≠ [])
    (hh : ∀ r ∈ rows, r.head? = some (PyVal.vstr d)) :
    rowsForDate (writePhase g d rows) d = rows.map (normWidth (headerWidth g)) := by
  rw [writePhase_nonempty g d rows hne]
  have hmatch : ∀ r ∈ rows.map (normWidth (headerWidth g)), rowMatches r d = true := by
    intro r hr
    obtain ⟨r0, hr0, rfl⟩ := List.mem_map.mp hr
    exact normWidth_matches _ r0 (PyVal.vstr d) d
      (length_ensureHeaders_pos (headerRow g)) (hh r0 hr0) (by simp [pyEqStr])
  simp only [rowsForDate]
  rw [drop_one_append _ _ (clear_date_ne_nil _ d (ensureGrid_ne_nil g))]
  rw [List.filter_append]
  rw [clear_date_drop]
  have h1 : (((ensureGrid g).drop 1).filter (fun r => !rowMatches r d)).filter
      (fun r => rowMatches r d) = [] := by
    rw [List.filter_eq_nil]
    intro a ha
    have := (List.mem_filter.mp ha).2
    simp only [Bool.not_eq_true'] at this
    simp [this]
  have h2 : (rows.map (normWidth (headerWidth g))).filter
      (fun r => rowMatches r d) = rows.map (normWidth (headerWidth g)) :=
    List.filter_eq_self.mpr hmatch
  rw [h1, h2, List.nil_append]

/-- Re-running the write phase with the same computed rows reproduces
the grid exactly. -/
theorem writePhase_idem (g : Grid) (d : String) (rows : List Row)
    (hne : rows ≠ [])
    (hh : ∀ r ∈ rows, r.head? = some (PyVal.vstr d)) :
    writePhase (writePhase g d rows) d rows = writePhase g d rows := by
  have hA := writePhase_nonempty g d rows hne
  set A := clear_date (ensureGrid g) d with hAdef
  have hmatch : ∀ r ∈ rows.map (normWidth (headerWidth g)), rowMatches r d = true := by
    intro r hr
    obtain ⟨r0, hr0, rfl⟩ := List.mem_map.mp hr
    exact normWidth_matches _ r0 (PyVal.vstr d) d
      (length_ensureHeaders_pos (headerRow g)) (hh r0 hr0) (by simp [pyEqStr])
  have hhead1 : headerRow (writePhase g d rows) = ensureHeaders (headerRow g) := by
    rw [hA]
    have hAne : A ≠ [] := clear_date_ne_nil _ d (ensureGrid_ne_nil g)
    have : headerRow (A ++ rows.map (normWidth (headerWidth g))) = headerRow A := by
      simp only [headerRow]
      cases hAc : A with
      | nil => exact absurd hAc hAne
      | cons x t => simp
    rw [this, hAdef, headerRow_clear_date, headerRow_ensureGrid]
  have hens : ensureGrid (writePhase g d rows) = writePhase g d rows := by
    simp only [ensureGrid]
    rw [hhead1, ensureHeaders_idem, if_pos rfl]
  rw [writePhase_nonempty (writePhase g d rows) d rows hne, hens]
  have hwidth : headerWidth (writePhase g d rows) = headerWidth g := by
    simp only [headerWidth]
    rw [hhead1, ensureHeaders_idem]
  have hclr : clear_date (writePhase g d rows) d = A := by
    rw [hA]
    cases hg : ensureGrid g with
    | nil => exact absurd hg (ensureGrid_ne_nil g)
    | cons y s =>
      have hAc : A = y :: s.filter (fun r => !rowMatches r d) := by
        rw [hAdef, clear_date_eq, hg]
      rw [hAc]
      rw [clear_date_eq]
      simp only [List.cons_append]
      have ht : (s.filter (fun r => !rowMatches r d)).filter
          (fun r => !rowMatches r d) = s.filter (fun r => !rowMatches r d) := by
        refine List.filter_eq_self.mpr ?_
        intro a ha
        exact (List.mem_filter.mp ha).2
      have hnr : (rows.map (normWidth (headerWidth g))).filter
          (fun r => !rowMatches r d) = [] := by
        rw [List.filter_eq_nil]
        intro a ha
        have := hmatch a ha
        simp [this]
      rw [List.filter_append, ht, hnr, List.append_nil]
  rw [hclr, hwidth, hA]

/-! Properties of the primary-tier aggregation. -/

theorem PROFILE_METRICS_nodup : PROFILE_METRICS.Nodup := by decide

/-- Proof helper: the per-key update recurrence of lines 413-418
(summation for numeric values, last-writer-wins for strings, TypeError
when a number is added onto a stored string). -/
def aggKeyStep (old val : PyVal) : Option PyVal :=
  match val with
  | .vnum b =>
    match old with
    | .vnum a => some (.vnum (a + b))
    | .vstr _ => none
  | .vstr s => some (.vstr s)

theorem updTgtKey_eq (it tgt : Record) (k : String) :
    updTgtKey it tgt k =
      (aggKeyStep (agetD tgt k (.vnum 0)) (agetD it k (.vnum 0))).map
        (fun w => aset tgt k w) := by
  simp only [updTgtKey, aggKeyStep]
  cases agetD it k (.vnum 0) with
  | vnum b =>
    cases agetD tgt k (.vnum 0) with
    | vnum a => rfl
    | vstr s => rfl
  | vstr s => rfl

theorem updTgtKeys_get_ne (it : Record) (keys : List String) :
    ∀ (tgt t' : Record) (k : String), k ∉ keys →
      updTgtKeys it keys tgt = some t' → aget t' k = aget tgt k := by
  induction keys with
  | nil =>
    intro tgt t' k _ h
    obtain rfl : tgt = t' := Option.some.inj h
    rfl
  | cons k1 ks ih =>
    intro tgt t' k hk h
    simp only [updTgtKeys] at h
    cases heq : updTgtKey it tgt k1 with
    | none => rw [heq] at h; exact absurd h (by simp)
    | some t1 =>
      rw [heq] at h
      have h1 : aget t' k = aget t1 k :=
        ih t1 t' k (fun hm => hk (by simp [hm])) h
      rw [updTgtKey_eq] at heq
      cases hstep : aggKeyStep (agetD tgt k1 (.vnum 0)) (agetD it k1 (.vnum 0)) with
      | none => rw [hstep] at heq; exact absurd heq (by simp)
      | some w =>
        rw [hstep] at heq
        obtain rfl : aset tgt k1 w = t1 := by simpa using heq
        rw [h1]
        exact aget_aset_ne tgt k1 k w (fun hkk => hk (by simp [hkk]))

theorem updTgtKeys_get_mem (it : Record) (keys : List String) :
    ∀ (tgt t' : Record) (k : String), keys.Nodup → k ∈ keys →
      updTgtKeys it keys tgt = some t' →
      ∃ w, aggKeyStep (agetD tgt k (.vnum 0)) (agetD it k (.vnum 0)) = some w
        ∧ aget t' k = some w := by
  induction keys with
  | nil =>
    intro tgt t' k _ hk _
    exact absurd hk (List.not_mem_nil k)
  | cons k1 ks ih =>
    intro tgt t' k hnd hk h
    simp only [updTgtKeys] at h
    cases heq : updTgtKey it tgt k1 with
    | none => rw [heq] at h; exact absurd h (by simp)
    | some t1 =>
      rw [heq] at h
      rw [updTgtKey_eq] at heq
      cases hstep : aggKeyStep (agetD tgt k1 (.vnum 0)) (agetD it k1 (.vnum 0)) with
      | none => rw [hstep] at heq; exact absurd heq (by simp)
      | some w1 =>
        rw [hstep] at heq
        obtain rfl : aset tgt k1 w1 = t1 := by simpa using heq
        rcases List.mem_cons.mp hk with rfl | hks
        · have hnot : k ∉ ks := (List.nodup_cons.mp hnd).1
          refine ⟨w1, hstep, ?_⟩
          rw [updTgtKeys_get_ne it ks _ t' k hnot h]
          exact aget_aset_self tgt k w1
        · have hne : k ≠ k1 := by
            intro hkk
            exact (List.nodup_cons.mp hnd).1 (hkk ▸ hks)
          have hsame : agetD (aset tgt k1 w1) k (.vnum 0) = agetD tgt k (.vnum 0) := by
            simp only [agetD, aget_aset_ne tgt k1 k w1 hne]
          obtain ⟨w, hw1, hw2⟩ := ih _ t' k (List.nodup_cons.mp hnd).2 hks h
          rw [hsame] at hw1
          exact ⟨w, hw1, hw2⟩

theorem addActive_mem (l : List Int) (i x : Int) :
    x ∈ addActive l i ↔ x ∈ l ∨ x = i := by
  simp only [addActive]
  by_cases h : i ∈ l
  · rw [if_pos h]
    constructor
    · exact Or.inl
    · rintro (hx | rfl)
      · exact hx
      · exact h
  · rw [if_neg h]
    simp

theorem addActive_nodup (l : List Int) (i : Int) (h : l.Nodup) :
    (addActive l i).Nodup := by
  simp only [addActive]
  by_cases hm : i ∈ l
  · rw [if_pos hm]; exact h
  · rw [if_neg hm]
    refine List.Nodup.append h (List.nodup_singleton i) ?_
    intro a ha hai
    rw [List.mem_singleton] at hai
    exact hm (hai ▸ ha)

/-- Unfolding of one processRecord step when it succeeds on a matching
record. -/
theorem processRecord_some_matching (dateStr : String) (st : AggState) (it : Record)
    (st' : AggState) (iid : Int)
    (hid : pyToIntOpt (aget it "itemId") = some iid)
    (hdt : pyEqStr (recDate it) dateStr = true)
    (h : processRecord dateStr st it = some st') :
    ∃ tgt', updTgtKeys it PROFILE_METRICS (agetD st.agg iid []) = some tgt'
      ∧ st' = ⟨addActive st.active iid, aset st.agg iid tgt'⟩ := by
  simp only [processRecord] at h
  rw [hid] at h
  dsimp only at h
  rw [if_pos hdt] at h
  cases hu : updTgtKeys it PROFILE_METRICS (agetD st.agg iid []) with
  | none => rw [hu] at h; exact absurd h (by simp)
  | some tgt' =>
    rw [hu] at h
    exact ⟨tgt', rfl, (Option.some.inj h).symm⟩

theorem processRecord_active_iff (dateStr : String) (st : AggState) (it : Record)
    (st' : AggState) (h : processRecord dateStr st it = some st') (i : Int) :
    i ∈ st'.active ↔ i ∈ st.active ∨
      (pyToIntOpt (aget it "itemId") = some i ∧ pyEqStr (recDate it) dateStr = true) := by
  simp only [processRecord] at h
  cases hid : pyToIntOpt (aget it "itemId") with
  | none => rw [hid] at h; exact absurd h (by simp)
  | some iid =>
    rw [hid] at h
    dsimp only at h
    by_cases hdt : pyEqStr (recDate it) dateStr = true
    · rw [if_pos hdt] at h
      cases hu : updTgtKeys it PROFILE_METRICS (agetD st.agg iid []) with
      | none => rw [hu] at h; exact absurd h (by simp)
      | some tgt' =>
        rw [hu] at h
        obtain rfl : (⟨addActive st.active iid, aset st.agg iid tgt'⟩ : AggState) = st' :=
          Option.some.inj h
        simp only [addActive_mem, hdt, and_true]
        constructor
        · rintro (hx | rfl)
          · exact Or.inl hx
          · exact Or.inr rfl
        · rintro (hx | hx)
          · exact Or.inl hx
          · exact Or.inr (Option.some.inj hx).symm
    · rw [if_neg hdt] at h
      obtain rfl : st = st' := Option.some.inj h
      constructor
      · exact Or.inl
      · rintro (hx | ⟨_, hdt'⟩)
        · exact hx
        · exact absurd hdt' hdt

theorem processPrimary_active_iff (dateStr : String) (recs : List Record) :
    ∀ (st0 st : AggState), processPrimary dateStr recs st0 = some st →
      ∀ i, i ∈ st.active ↔ i ∈ st0.active ∨
        ∃ r ∈ recs, pyToIntOpt (aget r "itemId") = some i
          ∧ pyEqStr (recDate r) dateStr = true := by
  induction recs with
  | nil =>
    intro st0 st h i
    obtain rfl : st0 = st := Option.some.inj h
    simp
  | cons it rest ih =>
    intro st0 st h i
    simp only [processPrimary] at h
    cases h1 : processRecord dateStr st0 it with
    | none => rw [h1] at h; exact absurd h (by simp)
    | some st1 =>
      rw [h1] at h
      rw [ih st1 st h i, processRecord_active_iff dateStr st0 it st1 h1 i]
      constructor
      · rintro ((hx | hx) | ⟨r, hr, hri⟩)
        · exact Or.inl hx
        · exact Or.inr ⟨it, by simp, hx⟩
        · exact Or.inr ⟨r, by simp [hr], hri⟩
      · rintro (hx | ⟨r, hr, hri⟩)
        · exact Or.inl (Or.inl hx)
        · rcases List.mem_cons.mp hr with rfl | hr'
          · exact Or.inl (Or.inr hri)
          · exact Or.inr ⟨r, hr', hri⟩

theorem processPrimary_active_nodup (dateStr : String) (recs : List Record) :
    ∀ (st0 st : AggState), processPrimary dateStr recs st0 = some st →
      st0.active.Nodup → st.active.Nodup := by
  induction recs with
  | nil =>
    intro st0 st h hnd
    obtain rfl : st0 = st := Option.some.inj h
    exact hnd
  | cons it rest ih =>
    intro st0 st h hnd
    simp only [processPrimary] at h
    cases h1 : processRecord dateStr st0 it with
    | none => rw [h1] at h; exact absurd h (by simp)
    | some st1 =>
      rw [h1] at h
      refine ih st1 st h ?_
      simp only [processRecord] at h1
      cases hid : pyToIntOpt (aget it "itemId") with
      | none => rw [hid] at h1; exact absurd h1 (by simp)
      | some iid =>
        rw [hid] at h1
        dsimp only at h1
        by_cases hdt : pyEqStr (recDate it) dateStr = true
        · rw [if_pos hdt] at h1
          cases hu : updTgtKeys it PROFILE_METRICS (agetD st0.agg iid []) with
          | none => rw [hu] at h1; exact absurd h1 (by simp)
          | some tgt' =>
            rw [hu] at h1
            obtain rfl : (⟨addActive st0.active iid, aset st0.agg iid tgt'⟩ : AggState) = st1 :=
              Option.some.inj h1
            exact addActive_nodup _ iid hnd
        · rw [if_neg hdt] at h1
          obtain rfl : st0 = st1 := Option.some.inj h1
          exact hnd

/-! The per-key value recurrence across several records (for the
duplicate-aggregation claim). -/

/-- Proof helper: the evolution of one metric key's stored value across
a record sequence, starting from the absent-key default 0. -/
def aggKeyFold : PyVal → List PyVal → Option PyVal
  | a, [] => some a
  | a, v :: t =>
    match aggKeyStep a v with
    | some a' => aggKeyFold a' t
    | none => none

/-- Numeric reading of a value, with strings read as 0 (only used to
state the all-numeric summation result). -/
def pyNumOf : PyVal → Int
  | .vnum n => n
  | .vstr _ => 0

theorem aggKeyFold_num (vals : List PyVal) :
    ∀ a : Int, (∀ v ∈ vals, v.isNum = true) →
      aggKeyFold (.vnum a) vals = some (.vnum (a + (vals.map pyNumOf).sum)) := by
  induction vals with
  | nil =>
    intro a _
    simp [aggKeyFold]
  | cons v t ih =>
    intro a hv
    cases hvv : v with
    | vnum b =>
      simp only [aggKeyFold, aggKeyStep]
      rw [ih (a + b) (fun w hw => hv w (by simp [hw]))]
      simp [pyNumOf]
      ring
    | vstr s =>
      have := hv v (by simp)
      rw [hvv] at this
      exact absurd this (by simp [PyVal.isNum])

theorem processPrimary_append (dateStr : String) (l1 l2 : List Record) :
    ∀ st, processPrimary dateStr (l1 ++ l2) st =
      match processPrimary dateStr l1 st with
      | some st1 => processPrimary dateStr l2 st1
      | none => none := by
  induction l1 with
  | nil =>
    intro st
    rfl
  | cons it rest ih =>
    intro st
    simp only [List.cons_append, processPrimary]
    cases processRecord dateStr st it with
    | none => rfl
    | some st1 => exact ih st1

/-- One matching record rewrites the tracked key by exactly one
aggKeyStep of its value. -/
theorem processRecord_agg_at (dateStr : String) (st st' : AggState) (it : Record)
    (iid : Int) (k : String)
    (hid : pyToIntOpt (aget it "itemId") = some iid)
    (hdt : pyEqStr (recDate it) dateStr = true)
    (hk : k ∈ PROFILE_METRICS)
    (h : processRecord dateStr st it = some st') :
    ∃ w, aggKeyStep (agetD (agetD st.agg iid []) k (.vnum 0)) (agetD it k (.vnum 0)) = some w
      ∧ aget (agetD st'.agg iid []) k = some w := by
  obtain ⟨tgt', hu, rfl⟩ := processRecord_some_matching dateStr st it st' iid hid hdt h
  obtain ⟨w, hw1, hw2⟩ :=
    updTgtKeys_get_mem it PROFILE_METRICS (agetD st.agg iid []) tgt' k
      PROFILE_METRICS_nodup hk hu
  refine ⟨w, hw1, ?_⟩
  have : agetD (aset st.agg iid tgt') iid [] = tgt' := by
    simp [agetD, aget_aset_self]
  simpa [this] using hw2

/-- Across a record sequence that concerns a single identifier and the
target date, the stored value of a tracked key is the aggKeyFold of the
record values at that key, started from 0. -/
theorem processPrimary_agg_fold (dateStr : String) (iid : Int) (k : String)
    (hk : k ∈ PROFILE_METRICS) (recs : List Record)
    (hids : ∀ r ∈ recs, pyToIntOpt (aget r "itemId") = some iid)
    (hdts : ∀ r ∈ recs, pyEqStr (recDate r) dateStr = true) :
    ∀ st0 st, processPrimary dateStr recs st0 = some st → recs ≠ [] →
      ∃ w, aggKeyFold (agetD (agetD st0.agg iid []) k (.vnum 0))
            (recs.map (fun r => agetD r k (.vnum 0))) = some w
        ∧ aget (agetD st.agg iid []) k = some w := by
  induction recs with
  | nil =>
    intro st0 st _ hne
    exact absurd rfl hne
  | cons it rest ih =>
    intro st0 st h _
    simp only [processPrimary] at h
    cases h1 : processRecord dateStr st0 it with
    | none => rw [h1] at h; exact absurd h (by simp)
    | some st1 =>
      rw [h1] at h
      obtain ⟨w1, hw1, hw2⟩ :=
        processRecord_agg_at dateStr st0 st1 it iid k
          (hids it (by simp)) (hdts it (by simp)) hk h1
      cases rest with
      | nil =>
        obtain rfl : st1 = st := Option.some.inj h
        refine ⟨w1, ?_, hw2⟩
        simp only [List.map_cons, List.map_nil, aggKeyFold, hw1]
      | cons r2 rest2 =>
        obtain ⟨w, hw3, hw4⟩ :=
          ih (fun r hr => hids r (by simp [hr])) (fun r hr => hdts r (by simp [hr]))
            st1 st h (by simp)
        refine ⟨w, ?_, hw4⟩
        simp only [List.map_cons, aggKeyFold, hw1]
        have hst1 : agetD (agetD st1.agg iid []) k (.vnum 0) = w1 := by
          simp only [agetD] at hw2 ⊢
          rw [hw2]
          rfl
        rw [← hst1]
        exact hw3

/-! Totality of the primary-tier aggregation on all-numeric metric
values (for the identifier-key safety claim). -/

/-- All tracked metric slots of the aggregation dictionary hold numeric
values (vacuously true for absent identifiers, whose slot defaults
to 0). -/
def numAgg (agg : List (Int × Record)) : Prop :=
  ∀ i k, k ∈ PROFILE_METRICS → (agetD (agetD agg i []) k (.vnum 0)).isNum = true

theorem updTgtKeys_total (it : Record) (keys : List String) :
    ∀ tgt : Record, (∀ k ∈ keys, (agetD it k (.vnum 0)).isNum = true) →
      (∀ k ∈ keys, (agetD tgt k (.vnum 0)).isNum = true) →
      ∃ t', updTgtKeys it keys tgt = some t'
        ∧ ∀ k, ((agetD tgt k (.vnum 0)).isNum = true ∨ k ∈ keys) →
            (agetD t' k (.vnum 0)).isNum = true := by
  induction keys with
  | nil =>
    intro tgt _ _
    exact ⟨tgt, rfl, fun k hk => by
      rcases hk with hk | hk
      · exact hk
      · exact absurd hk (List.not_mem_nil k)⟩
  | cons k1 ks ih =>
    intro tgt hv ht
    have hv1 : (agetD it k1 (.vnum 0)).isNum = true := hv k1 (by simp)
    have ht1 : (agetD tgt k1 (.vnum 0)).isNum = true := ht k1 (by simp)
    obtain ⟨b, hb⟩ : ∃ b, agetD it k1 (.vnum 0) = .vnum b := by
      cases hx : agetD it k1 (.vnum 0) with
      | vnum b => exact ⟨b, rfl⟩
      | vstr s => rw [hx] at hv1; exact absurd hv1 (by simp [PyVal.isNum])
    obtain ⟨a, ha⟩ : ∃ a, agetD tgt k1 (.vnum 0) = .vnum a := by
      cases hx : agetD tgt k1 (.vnum 0) with
      | vnum a => exact ⟨a, rfl⟩
      | vstr s => rw [hx] at ht1; exact absurd ht1 (by simp [PyVal.isNum])
    have hstep : updTgtKey it tgt k1 = some (aset tgt k1 (.vnum (a + b))) := by
      rw [updTgtKey_eq, hb, ha]
      rfl
    have hsetnum : ∀ k, ((agetD tgt k (.vnum 0)).isNum = true ∨ k = k1) →
        (agetD (aset tgt k1 (.vnum (a + b))) k (.vnum 0)).isNum = true := by
      intro k hc
      by_cases hkk : k = k1
      · subst hkk
        simp [agetD, aget_aset_self, PyVal.isNum]
      · rcases hc with hc | hc
        · simpa [agetD, aget_aset_ne tgt k1 k _ hkk] using hc
        · exact absurd hc hkk
    obtain ⟨t', ht', hnum⟩ := ih (aset tgt k1 (.vnum (a + b)))
      (fun k hk => hv k (by simp [hk]))
      (fun k hk => hsetnum k (Or.inl (ht k (by simp [hk]))))
    refine ⟨t', ?_, ?_⟩
    · simp only [updTgtKeys, hstep]
      exact ht'
    · intro k hc
      refine hnum k ?_
      rcases hc with hc | hc
      · exact Or.inl (hsetnum k (Or.inl hc))
      · rcases List.mem_cons.mp hc with rfl | hks
        · exact Or.inl (hsetnum k (Or.inr rfl))
        · exact Or.inr hks

theorem processRecord_total (dateStr : String) (st : AggState) (it : Record)
    (hid : (pyToIntOpt (aget it "itemId")).isSome = true)
    (hv : ∀ k ∈ PROFILE_METRICS, (agetD it k (.vnum 0)).isNum = true)
    (hnum : numAgg st.agg) :
    ∃ st', processRecord dateStr st it = some st' ∧ numAgg st'.agg := by
  obtain ⟨iid, hiid⟩ := Option.isSome_iff_exists.mp hid
  by_cases hdt : pyEqStr (recDate it) dateStr = true
  · obtain ⟨t', ht', htnum⟩ :=
      updTgtKeys_total it PROFILE_METRICS (agetD st.agg iid [])
        hv (fun k hk => hnum iid k hk)
    refine ⟨⟨addActive st.active iid, aset st.agg iid t'⟩, ?_, ?_⟩
    · simp only [processRecord, hiid]
      rw [if_pos hdt, ht']
    · intro i k hk
      by_cases hii : i = iid
      · subst hii
        have : agetD (aset st.agg i t') i [] = t' := by
          simp [agetD, aget_aset_self]
        rw [this]
        exact htnum k (Or.inr hk)
      · have : agetD (aset st.agg iid t') i [] = agetD st.agg i [] := by
          simp [agetD, aget_aset_ne st.agg iid i t' hii]
        rw [this]
        exact hnum i k hk
  · refine ⟨st, ?_, hnum⟩
    simp only [processRecord, hiid]
    rw [if_neg hdt]

theorem processPrimary_total (dateStr : String) (recs : List Record)
    (hid : ∀ r ∈ recs, (pyToIntOpt (aget r "itemId")).isSome = true)
    (hv : ∀ r ∈ recs, ∀ k ∈ PROFILE_METRICS, (agetD r k (.vnum 0)).isNum = true) :
    ∀ st, numAgg st.agg → ∃ st', processPrimary dateStr recs st = some st' := by
  induction recs with
  | nil =>
    intro st _
    exact ⟨st, rfl⟩
  | cons it rest ih =>
    intro st hnum
    obtain ⟨st1, h1, hnum1⟩ :=
      processRecord_total dateStr st it (hid it (by simp)) (hv it (by simp)) hnum
    obtain ⟨st', h'⟩ := ih (fun r hr => hid r (by simp [hr]))
      (fun r hr => hv r (by simp [hr])) st1 hnum1
    exact ⟨st', by simp only [processPrimary, h1, h']⟩

theorem initAgg_numAgg : numAgg initAgg.agg := by
  intro i k _
  simp [initAgg, agetD, aget, PyVal.isNum]

/-! Shape of the built rows and behaviour of the item-info cache. -/

theorem mkPrimaryRow_head (d : String) (iid : Int) (title : String) (m : Record)
    (vl : List VasEntry) (f : List (String × Int)) :
    (mkPrimaryRow d iid title m vl f).head? = some (.vstr d) := rfl

theorem mkPrimaryRow_get1 (d : String) (iid : Int) (title : String) (m : Record)
    (vl : List VasEntry) (f : List (String × Int)) :
    (mkPrimaryRow d iid title m vl f).get? 1 = some (.vstr (toString iid)) := rfl

theorem mkPrimaryRow_length (d : String) (iid : Int) (title : String) (m : Record)
    (vl : List VasEntry) (f : List (String × Int)) :
    (mkPrimaryRow d iid title m vl f).length = 32 := rfl

theorem mkFallbackRow_head (d : String) (iid : Int) (title : String) (vals : V1Rec)
    (vl : List VasEntry) :
    (mkFallbackRow d iid title vals vl).head? = some (.vstr d) := rfl

theorem mkFallbackRow_get1 (d : String) (iid : Int) (title : String) (vals : V1Rec)
    (vl : List VasEntry) :
    (mkFallbackRow d iid title vals vl).get? 1 = some (.vstr (toString iid)) := rfl

theorem mkFallbackRow_length (d : String) (iid : Int) (title : String) (vals : V1Rec)
    (vl : List VasEntry) :
    (mkFallbackRow d iid title vals vl).length = 32 := rfl

theorem buildRowPrimary_shape (d : String) (titles : List (Int × String))
    (vasFlags : List (Int × List (String × Int))) (info : Int → HttpResp)
    (st : CacheSt) (agg : List (Int × Record)) (iid : Int) (row : Row) (st' : CacheSt)
    (h : buildRowPrimary d titles vasFlags info st agg iid = .ok (row, st')) :
    ∃ title vl f, row = mkPrimaryRow d iid title (agetD agg iid []) vl f := by
  simp only [buildRowPrimary] at h
  cases ht : titlePhase titles info st iid with
  | error e => rw [ht] at h; exact absurd h (by simp)
  | ok p =>
    rw [ht] at h
    obtain ⟨ptitle, pst⟩ := p
    dsimp only at h
    cases hf : fetchCached info pst iid with
    | error e => rw [hf] at h; exact absurd h (by simp)
    | ok st2 =>
      rw [hf] at h
      refine ⟨ptitle, (agetD st2.cache iid ItemInfo.empty).vas,
        agetD vasFlags iid defaultFlags, ?_⟩
      have := Except.ok.inj h
      exact (congrArg Prod.fst this).symm

/-- The cache invariant: every logged identifier is cached, and the log
is duplicate-free. -/
def cacheInv (st : CacheSt) : Prop :=
  st.calls.Nodup ∧ ∀ i ∈ st.calls, memKey st.cache i = true

theorem fetchCached_inv (info : Int → HttpResp) (st : CacheSt) (iid : Int)
    (st' : CacheSt) (h : fetchCached info st iid = .ok st') (hinv : cacheInv st) :
    cacheInv st' := by
  simp only [fetchCached] at h
  by_cases hm : memKey st.cache iid = true
  · rw [if_pos hm] at h
    obtain rfl : st = st' := Except.ok.inj h
    exact hinv
  · rw [if_neg hm] at h
    cases hg : get_item_info (info iid) with
    | error e => rw [hg] at h; exact absurd h (by simp)
    | ok i =>
      rw [hg] at h
      obtain rfl : (⟨aset st.cache iid i, st.calls ++ [iid]⟩ : CacheSt) = st' :=
        Except.ok.inj h
      constructor
      · have hnotin : iid ∉ st.calls := by
          intro hc
          exact hm (hinv.2 iid hc)
        refine List.Nodup.append hinv.1 (List.nodup_singleton iid) ?_
        intro a ha hai
        rw [List.mem_singleton] at hai
        exact hnotin (hai ▸ ha)
      · intro j hj
        simp only
        rw [memKey_aset]
        rcases List.mem_append.mp hj with hj | hj
        · simp [hinv.2 j hj]
        · rw [List.mem_singleton] at hj
          simp [hj]

theorem titlePhase_inv (titles : List (Int × String)) (info : Int → HttpResp)
    (st : CacheSt) (iid : Int) (t : String) (st' : CacheSt)
    (h : titlePhase titles info st iid = .ok (t, st')) (hinv : cacheInv st) :
    cacheInv st' := by
  simp only [titlePhase] at h
  by_cases h0 : agetD titles iid "" = ""
  · rw [if_pos h0] at h
    cases hf : fetchCached info st iid with
    | error e => rw [hf] at h; exact absurd h (by simp)
    | ok st1 =>
      rw [hf] at h
      obtain hp := Except.ok.inj h
      have : st1 = st' := congrArg Prod.snd hp
      exact this ▸ fetchCached_inv info st iid st1 hf hinv
  · rw [if_neg h0] at h
    obtain hp := Except.ok.inj h
    have : st = st' := congrArg Prod.snd hp
    exact this ▸ hinv

theorem buildRowPrimary_inv (d : String) (titles : List (Int × String))
    (vasFlags : List (Int × List (String × Int))) (info : Int → HttpResp)
    (st : CacheSt) (agg : List (Int × Record)) (iid : Int) (row : Row) (st' : CacheSt)
    (h : buildRowPrimary d titles vasFlags info st agg iid = .ok (row, st'))
    (hinv : cacheInv st) : cacheInv st' := by
  simp only [buildRowPrimary] at h
  cases ht : titlePhase titles info st iid with
  | error e => rw [ht] at h; exact absurd h (by simp)
  | ok p =>
    rw [ht] at h
    obtain ⟨ptitle, pst⟩ := p
    dsimp only at h
    cases hf : fetchCached info pst iid with
    | error e => rw [hf] at h; exact absurd h (by simp)
    | ok st2 =>
      rw [hf] at h
      have hp : st2 = st' := congrArg Prod.snd (Except.ok.inj h)
      have h1 : cacheInv pst := titlePhase_inv titles info st iid ptitle pst ht hinv
      exact hp ▸ fetchCached_inv info pst iid st2 hf h1

theorem buildRowsPrimary_spec (d : String) (titles : List (Int × String))
    (vasFlags : List (Int × List (String × Int))) (info : Int → HttpResp) :
    ∀ (L : List Int) (st : CacheSt) (agg : List (Int × Record))
      (rows : List Row) (st' : CacheSt),
      buildRowsPrimary d titles vasFlags info L st agg = .ok (rows, st') →
      rows.length = L.length
        ∧ (∀ r ∈ rows, r.head? = some (.vstr d) ∧ r.length = 32)
        ∧ rows.map (fun r => r.get? 1)
            = L.map (fun i => some (PyVal.vstr (toString i)))
        ∧ (cacheInv st → cacheInv st') := by
  intro L
  induction L with
  | nil =>
    intro st agg rows st' h
    simp only [buildRowsPrimary] at h
    obtain hp := Except.ok.inj h
    obtain rfl : ([] : List Row) = rows := congrArg Prod.fst hp
    obtain rfl : st = st' := congrArg Prod.snd hp
    exact ⟨rfl, by simp, rfl, id⟩
  | cons iid rest ih =>
    intro st agg rows st' h
    simp only [buildRowsPrimary] at h
    cases h1 : buildRowPrimary d titles vasFlags info st agg iid with
    | error e => rw [h1] at h; exact absurd h (by simp)
    | ok p =>
      rw [h1] at h
      obtain ⟨prow, pst⟩ := p
      dsimp only at h
      cases h2 : buildRowsPrimary d titles vasFlags info rest pst agg with
      | error e => rw [h2] at h; exact absurd h (by simp)
      | ok q =>
        rw [h2] at h
        obtain ⟨qrows, qst⟩ := q
        dsimp only at h
        obtain hp := Except.ok.inj h
        obtain rfl : prow :: qrows = rows := congrArg Prod.fst hp
        obtain rfl : qst = st' := congrArg Prod.snd hp
        obtain ⟨hlen, hshape, hmap, hcinv⟩ := ih pst agg qrows qst h2
        obtain ⟨title, vl, f, hrow⟩ :=
          buildRowPrimary_shape d titles vasFlags info st agg iid prow pst h1
        refine ⟨by simp [hlen], ?_, ?_, ?_⟩
        · intro r hr
          rcases List.mem_cons.mp hr with rfl | hr
          · rw [hrow]
            exact ⟨mkPrimaryRow_head d iid title _ vl f,
              mkPrimaryRow_length d iid title _ vl f⟩
          · exact hshape r hr
        · simp only [List.map_cons, hmap, hrow,
            mkPrimaryRow_get1 d iid title _ vl f]
        · intro hst
          exact hcinv
            (buildRowPrimary_inv d titles vasFlags info st agg iid prow pst h1 hst)

theorem buildRowFallback_shape (d : String) (titles : List (Int × String))
    (info : Int → HttpResp) (callLog : List Int) (iid : Int) (vals : V1Rec)
    (row : Row) (log' : List Int)
    (h : buildRowFallback d titles info callLog iid vals = .ok (row, log')) :
    ∃ title vl, row = mkFallbackRow d iid title vals vl := by
  simp only [buildRowFallback] at h
  by_cases h0 : agetD titles iid "" = ""
  · rw [if_pos h0] at h
    cases hg : get_item_info (info iid) with
    | error e => rw [hg] at h; exact absurd h (by simp)
    | ok i =>
      rw [hg] at h
      dsimp only at h
      exact ⟨i.title.trim, i.vas, (congrArg Prod.fst (Except.ok.inj h)).symm⟩
  · rw [if_neg h0] at h
    dsimp only at h
    cases hg2 : get_item_info (info iid) with
    | error e => rw [hg2] at h; exact absurd h (by simp)
    | ok i2 =>
      rw [hg2] at h
      refine ⟨agetD titles iid "", i2.vas, ?_⟩
      exact (congrArg Prod.fst (Except.ok.inj h)).symm

theorem buildRowsFallback_spec (d : String) (titles : List (Int × String))
    (info : Int → HttpResp) :
    ∀ (L : List Int) (callLog : List Int) (am : List (Int × V1Rec))
      (rows : List Row) (log' : List Int),
      buildRowsFallback d titles info L callLog am = .ok (rows, log') →
      rows.length = L.length
        ∧ (∀ r ∈ rows, r.head? = some (.vstr d) ∧ r.length = 32)
        ∧ rows.map (fun r => r.get? 1)
            = L.map (fun i => some (PyVal.vstr (toString i))) := by
  intro L
  induction L with
  | nil =>
    intro callLog am rows log' h
    simp only [buildRowsFallback] at h
    obtain hp := Except.ok.inj h
    obtain rfl : ([] : List Row) = rows := congrArg Prod.fst hp
    exact ⟨rfl, by simp, rfl⟩
  | cons iid rest ih =>
    intro callLog am rows log' h
    simp only [buildRowsFallback] at h
    cases h1 : buildRowFallback d titles info callLog iid (agetD am iid ⟨0, 0⟩) with
    | error e => rw [h1] at h; exact absurd h (by simp)
    | ok p =>
      rw [h1] at h
      obtain ⟨prow, plog⟩ := p
      dsimp only at h
      cases h2 : buildRowsFallback d titles info rest plog am with
      | error e => rw [h2] at h; exact absurd h (by simp)
      | ok q =>
        rw [h2] at h
        obtain ⟨qrows, qlog⟩ := q
        dsimp only at h
        obtain hp := Except.ok.inj h
        obtain rfl : prow :: qrows = rows := congrArg Prod.fst hp
        obtain ⟨hlen, hshape, hmap⟩ := ih plog am qrows qlog h2
        obtain ⟨title, vl, hrow⟩ :=
          buildRowFallback_shape d titles info callLog iid _ prow plog h1
        refine ⟨by simp [hlen], ?_, ?_⟩
        · intro r hr
          rcases List.mem_cons.mp hr with rfl | hr
          · rw [hrow]
            exact ⟨mkFallbackRow_head d iid title _ vl,
              mkFallbackRow_length d iid title _ vl⟩
          · exact hshape r hr
        · simp only [List.map_cons, hmap, hrow,
            mkFallbackRow_get1 d iid title _ vl]

/-! Membership and key uniqueness of the fallback active map. -/

theorem keys_nodup_aset {β : Type} (l : List (Int × β)) (k : Int) (v : β)
    (h : (l.map Prod.fst).Nodup) : ((aset l k v).map Prod.fst).Nodup := by
  rw [keys_aset]
  by_cases hk : k ∈ l.map Prod.fst
  · rw [if_pos hk]; exact h
  · rw [if_neg hk]
    refine List.Nodup.append h (List.nodup_singleton k) ?_
    intro a ha hai
    rw [List.mem_singleton] at hai
    exact hk (hai ▸ ha)

/-- Activity of an identifier within one stats_v1 response item list. -/
def v1ItemActive (items : List StatsItem) (dateStr : String) (i : Int) : Prop :=
  ∃ it ∈ items, truthyOpt (pyOr it.itemId it.item_id) = true
    ∧ pyToIntOpt (pyOr it.itemId it.item_id) = some i
    ∧ ∃ s ∈ it.stats, s.date = dateStr

theorem v1AddStats_spec (dateStr : String) (iid : Int) (stats : List StatEntry) :
    ∀ (am am' : List (Int × V1Rec)), v1AddStats dateStr iid stats am = some am' →
      (∀ i, memKey am' i = true ↔
        memKey am i = true ∨ (i = iid ∧ ∃ s ∈ stats, s.date = dateStr))
      ∧ ((am.map Prod.fst).Nodup → (am'.map Prod.fst).Nodup) := by
  induction stats with
  | nil =>
    intro am am' h
    obtain rfl : am = am' := Option.some.inj h
    exact ⟨fun i => by simp, id⟩
  | cons s rest ih =>
    intro am am' h
    simp only [v1AddStats] at h
    by_cases hd : s.date = dateStr
    · rw [if_pos hd] at h
      cases huv : v1Num s.uniqViews with
      | none => rw [huv] at h; exact absurd h (by simp)
      | some uv =>
        rw [huv] at h
        cases huc : v1Num s.uniqContacts with
        | none => rw [huc] at h; exact absurd h (by simp)
        | some uc =>
          rw [huc] at h
          dsimp only at h
          obtain ⟨hmem, hnd⟩ := ih _ am' h
          constructor
          · intro i
            rw [hmem i, memKey_aset]
            constructor
            · rintro (hx | hx)
              · rcases Bool.or_eq_true_iff.mp hx with hx | hx
                · exact Or.inl hx
                · exact Or.inr ⟨by simpa using hx, s, by simp, hd⟩
              · exact Or.inr ⟨hx.1, s, by simp, hd⟩
            · rintro (hx | ⟨rfl, _⟩)
              · exact Or.inl (by simp [hx])
              · exact Or.inl (by simp)
          · intro h0
            exact hnd (keys_nodup_aset am iid _ h0)
    · rw [if_neg hd] at h
      obtain ⟨hmem, hnd⟩ := ih am am' h
      refine ⟨fun i => ?_, hnd⟩
      rw [hmem i]
      constructor
      · rintro (hx | ⟨rfl, s', hs', hd'⟩)
        · exact Or.inl hx
        · exact Or.inr ⟨rfl, s', by simp [hs'], hd'⟩
      · rintro (hx | ⟨rfl, s', hs', hd'⟩)
        · exact Or.inl hx
        · rcases List.mem_cons.mp hs' with rfl | hs''
          · exact absurd hd' hd
          · exact Or.inr ⟨rfl, s', hs'', hd'⟩

theorem v1ProcessItems_spec (dateStr : String) (items : List StatsItem) :
    ∀ (am am' : List (Int × V1Rec)), v1ProcessItems dateStr items am = some am' →
      (∀ i, memKey am' i = true ↔
        memKey am i = true ∨ v1ItemActive items dateStr i)
      ∧ ((am.map Prod.fst).Nodup → (am'.map Prod.fst).Nodup) := by
  induction items with
  | nil =>
    intro am am' h
    obtain rfl : am = am' := Option.some.inj h
    exact ⟨fun i => by simp [v1ItemActive], id⟩
  | cons it rest ih =>
    intro am am' h
    simp only [v1ProcessItems] at h
    by_cases htr : truthyOpt (pyOr it.itemId it.item_id) = true
    · rw [if_pos htr] at h
      cases hii : pyToIntOpt (pyOr it.itemId it.item_id) with
      | none => rw [hii] at h; exact absurd h (by simp)
      | some iid =>
        rw [hii] at h
        dsimp only at h
        cases hadd : v1AddStats dateStr iid it.stats am with
        | none => rw [hadd] at h; exact absurd h (by simp)
        | some am1 =>
          rw [hadd] at h
          obtain ⟨hm1, hn1⟩ := v1AddStats_spec dateStr iid it.stats am am1 hadd
          obtain ⟨hm2, hn2⟩ := ih am1 am' h
          constructor
          · intro i
            rw [hm2 i, hm1 i]
            constructor
            · rintro ((hx | ⟨rfl, s', hs', hd'⟩) | hx)
              · exact Or.inl hx
              · exact Or.inr ⟨it, by simp, htr, hii, s', hs', hd'⟩
              · obtain ⟨it', hit', hprop⟩ := hx
                exact Or.inr ⟨it', by simp [hit'], hprop⟩
            · rintro (hx | ⟨it', hit', htr', hii', s', hs', hd'⟩)
              · exact Or.inl (Or.inl hx)
              · rcases List.mem_cons.mp hit' with rfl | hit''
                · refine Or.inl (Or.inr ⟨?_, s', hs', hd'⟩)
                  have := hii.symm.trans hii'
                  exact (Option.some.inj this).symm
                · exact Or.inr ⟨it', hit'', htr', hii', s', hs', hd'⟩
          · exact fun h0 => hn2 (hn1 h0)
    · rw [if_neg htr] at h
      obtain ⟨hm2, hn2⟩ := ih am am' h
      constructor
      · intro i
        rw [hm2 i]
        constructor
        · rintro (hx | ⟨it', hit', hprop⟩)
          · exact Or.inl hx
          · exact Or.inr ⟨it', by simp [hit'], hprop⟩
        · rintro (hx | ⟨it', hit', htr', hrest⟩)
          · exact Or.inl hx
          · rcases List.mem_cons.mp hit' with rfl | hit''
            · exact absurd htr' htr
            · exact Or.inr ⟨it', hit'', htr', hrest⟩
      · exact hn2

theorem buildActiveMapV1_spec (v1 : List Int → List StatsItem) (dateStr : String)
    (batches : List (List Int)) :
    ∀ (am am' : List (Int × V1Rec)),
      buildActiveMapV1 v1 dateStr batches am = some am' →
      (∀ i, memKey am' i = true ↔
        memKey am i = true
          ∨ ∃ b ∈ batches, v1ItemActive (v1 (b.take 200)) dateStr i)
      ∧ ((am.map Prod.fst).Nodup → (am'.map Prod.fst).Nodup) := by
  induction batches with
  | nil =>
    intro am am' h
    obtain rfl : am = am' := Option.some.inj h
    exact ⟨fun i => by simp, id⟩
  | cons b rest ih =>
    intro am am' h
    simp only [buildActiveMapV1] at h
    cases h1 : v1ProcessItems dateStr (v1 (b.take 200)) am with
    | none => rw [h1] at h; exact absurd h (by simp)
    | some am1 =>
      rw [h1] at h
      obtain ⟨hm1, hn1⟩ := v1ProcessItems_spec dateStr _ am am1 h1
      obtain ⟨hm2, hn2⟩ := ih am1 am' h
      constructor
      · intro i
        rw [hm2 i, hm1 i]
        constructor
        · rintro ((hx | hx) | ⟨b', hb', hprop⟩)
          · exact Or.inl hx
          · exact Or.inr ⟨b, by simp, hx⟩
          · exact Or.inr ⟨b', by simp [hb'], hprop⟩
        · rintro (hx | ⟨b', hb', hprop⟩)
          · exact Or.inl (Or.inl hx)
          · rcases List.mem_cons.mp hb' with rfl | hb''
            · exact Or.inl (Or.inr hprop)
            · exact Or.inr ⟨b', hb'', hprop⟩
      · exact fun h0 => hn2 (hn1 h0)

/-! Shape of a day's computed output, in either tier. -/

theorem primaryCompute_spec (titles : List (Int × String))
    (vasFlags : List (Int × List (String × Int))) (info : Int → HttpResp)
    (recs : List Record) (d : String) (dout : DayOut)
    (h : primaryCompute titles vasFlags info recs d = .ok dout) :
    dout.activeSorted.Nodup ∧ List.Sorted (· ≤ ·) dout.activeSorted
      ∧ dout.rows.length = dout.activeSorted.length
      ∧ (∀ r ∈ dout.rows, r.head? = some (.vstr d) ∧ r.length = 32)
      ∧ dout.rows.map (fun r => r.get? 1)
          = dout.activeSorted.map (fun i => some (PyVal.vstr (toString i))) := by
  simp only [primaryCompute] at h
  cases hp : processPrimary d recs initAgg with
  | none => rw [hp] at h; exact absurd h (by simp)
  | some st =>
    rw [hp] at h
    dsimp only at h
    cases hb : buildRowsPrimary d titles vasFlags info (sortInts st.active) ⟨[], []⟩ st.agg with
    | error e => rw [hb] at h; exact absurd h (by simp)
    | ok p =>
      rw [hb] at h
      obtain ⟨rows, cst⟩ := p
      dsimp only at h
      obtain rfl : (⟨rows, sortInts st.active, cst.calls⟩ : DayOut) = dout :=
        Except.ok.inj h
      obtain ⟨hlen, hshape, hmap, _⟩ :=
        buildRowsPrimary_spec d titles vasFlags info (sortInts st.active)
          ⟨[], []⟩ st.agg rows cst hb
      have hnd : st.active.Nodup :=
        processPrimary_active_nodup d recs initAgg st hp (by simp [initAgg])
      exact ⟨sortInts_nodup _ hnd, sortInts_sorted _, hlen, hshape, hmap⟩

theorem fallbackCompute_spec (titles : List (Int × String)) (info : Int → HttpResp)
    (v1 : List Int → List StatsItem) (itemIds : List Int) (d : String) (dout : DayOut)
    (h : fallbackCompute titles info v1 itemIds d = .ok dout) :
    dout.activeSorted.Nodup ∧ List.Sorted (· ≤ ·) dout.activeSorted
      ∧ dout.rows.length = dout.activeSorted.length
      ∧ (∀ r ∈ dout.rows, r.head? = some (.vstr d) ∧ r.length = 32)
      ∧ dout.rows.map (fun r => r.get? 1)
          = dout.activeSorted.map (fun i => some (PyVal.vstr (toString i))) := by
  simp only [fallbackCompute] at h
  cases ham : buildActiveMapV1 v1 d (chunkBatches itemIds) [] with
  | none => rw [ham] at h; exact absurd h (by simp)
  | some am =>
    rw [ham] at h
    dsimp only at h
    cases hb : buildRowsFallback d titles info (sortInts (am.map Prod.fst)) [] am with
    | error e => rw [hb] at h; exact absurd h (by simp)
    | ok p =>
      rw [hb] at h
      obtain ⟨rows, callLog⟩ := p
      dsimp only at h
      obtain rfl : (⟨rows, sortInts (am.map Prod.fst), callLog⟩ : DayOut) = dout :=
        Except.ok.inj h
      obtain ⟨hlen, hshape, hmap⟩ :=
        buildRowsFallback_spec d titles info (sortInts (am.map Prod.fst))
          [] am rows callLog hb
      have hnd : (am.map Prod.fst).Nodup :=
        (buildActiveMapV1_spec v1 d (chunkBatches itemIds) [] am ham).2 (by simp)
      exact ⟨sortInts_nodup _ hnd, sortInts_sorted _, hlen, hshape, hmap⟩

theorem computeRowsOut_spec (titles : List (Int × String))
    (vasFlags : List (Int × List (String × Int))) (info : Int → HttpResp)
    (v1 : List Int → List StatsItem) (itemIds : List Int)
    (fr : FetchResult) (d : String) (dout : DayOut)
    (h : computeRowsOut titles vasFlags info v1 itemIds fr d = .ok dout) :
    dout.activeSorted.Nodup ∧ List.Sorted (· ≤ ·) dout.activeSorted
      ∧ dout.rows.length = dout.activeSorted.length
      ∧ (∀ r ∈ dout.rows, r.head? = some (.vstr d) ∧ r.length = 32)
      ∧ dout.rows.map (fun r => r.get? 1)
          = dout.activeSorted.map (fun i => some (PyVal.vstr (toString i))) := by
  simp only [computeRowsOut] at h
  by_cases hp : profTruthy (profOf fr) = true
  · rw [if_pos hp] at h
    exact primaryCompute_spec titles vasFlags info _ d dout h
  · rw [if_neg hp] at h
    exact fallbackCompute_spec titles info v1 itemIds d dout h

/-! Claim theorems. -/

/-- C2: replace-write semantics.  When a non-empty row set is computed
for a target date, every existing data row whose date column equals that
date is removed and the newly computed rows (width-normalized to the
current header width) are appended, so the sink afterwards holds exactly
the newly computed rows for that date, with no duplicates and no
leftovers. -/
theorem c2_replace_write (g : Grid) (d : String) (rows : List Row)
    (hne : rows ≠ [])
    (hh : ∀ r ∈ rows, r.head? = some (PyVal.vstr d)) :
    rowsForDate (writePhase g d rows) d = rows.map (normWidth (headerWidth g))
      ∧ (rowsForDate (writePhase g d rows) d).length = rows.length := by
  have h1 := rowsForDate_writePhase g d rows hne hh
  exact ⟨h1, by rw [h1]; simp⟩

/-- Witness grid for the replace-write claim: header row, alias row,
five data rows dated 2025-06-27 and one row of another date. -/
def c2wG : Grid :=
  (DATA_HEADERS.map PyVal.vstr) ::
    [PyVal.vstr "Дата", PyVal.vstr "Номер объявления"] ::
    [PyVal.vstr "2025-06-27", PyVal.vstr "11"] ::
    [PyVal.vstr "2025-06-27", PyVal.vstr "12"] ::
    [PyVal.vstr "2025-06-27", PyVal.vstr "13"] ::
    [PyVal.vstr "2025-06-26", PyVal.vstr "11"] ::
    [PyVal.vstr "2025-06-27", PyVal.vstr "14"] ::
    [[PyVal.vstr "2025-06-27", PyVal.vstr "15"]]

/-- Witness rows for the replace-write claim: three newly computed rows
dated 2025-06-27. -/
def c2wRows : List Row :=
  [ [PyVal.vstr "2025-06-27", PyVal.vstr "1"],
    [PyVal.vstr "2025-06-27", PyVal.vstr "2"],
    [PyVal.vstr "2025-06-27", PyVal.vstr "3"] ]

theorem c2_replace_write_witness :
    (c2wRows ≠ [] ∧ ∀ r ∈ c2wRows, r.head? = some (PyVal.vstr "2025-06-27"))
      ∧ rowsForDate (writePhase c2wG "2025-06-27" c2wRows) "2025-06-27"
          = c2wRows.map (normWidth (headerWidth c2wG))
      ∧ (rowsForDate (writePhase c2wG "2025-06-27" c2wRows) "2025-06-27").length = 3 := by
  refine ⟨⟨by decide, by decide⟩, ?_⟩
  have h := c2_replace_write c2wG "2025-06-27" c2wRows (by decide) (by decide)
  exact ⟨h.1, h.2⟩

/-- C5: empty-day frame property.  When the computed row set of a day is
empty, the write phase is skipped entirely: the grid is returned
unchanged, so prior sink data for that date stays as it was. -/
theorem c5_empty_day (titles : List (Int × String))
    (vasFlags : List (Int × List (String × Int))) (info : Int → HttpResp)
    (v1 : List Int → List StatsItem) (itemIds : List Int)
    (fr : FetchResult) (d : String) (g : Grid) (dout : DayOut)
    (hc : computeRowsOut titles vasFlags info v1 itemIds fr d = .ok dout)
    (hrows : dout.rows = []) :
    process_one_day titles vasFlags info v1 itemIds fr d g = .ok (g, dout.calls)
      ∧ writePhase g d dout.rows = g := by
  have hw : writePhase g d dout.rows = g := by
    simp [writePhase, hrows]
  refine ⟨?_, hw⟩
  simp only [process_one_day, hc, hw]

/-- Concrete day input for the empty-day witness: the primary fetch
succeeds with a single record dated one day off the target, so the
primary tier runs and computes no active listing. -/
def c5wRec : Record :=
  [("itemId", PyVal.vnum 7), ("date", PyVal.vstr "2025-06-26"),
   ("views", PyVal.vnum 5)]

/-- Trivial item-info oracle for witnesses (always HTTP 200 with an
empty body). -/
def okInfo : Int → HttpResp := fun _ => ⟨200, ItemInfo.empty⟩

/-- Trivial stats_v1 oracle for witnesses (no response items). -/
def emptyV1 : List Int → List StatsItem := fun _ => []

/-- Witness grid carrying one prior row for the target date. -/
def c5wG : Grid :=
  [[PyVal.vstr "date"],
   [PyVal.vstr "2025-06-27", PyVal.vstr "999"]]

theorem c5_empty_day_witness :
    computeRowsOut [] [] okInfo emptyV1 [] (.ok [c5wRec]) "2025-06-27"
        = .ok ⟨[], [], []⟩
      ∧ process_one_day [] [] okInfo emptyV1 [] (.ok [c5wRec]) "2025-06-27" c5wG
          = .ok (c5wG, [])
      ∧ rowsForDate c5wG "2025-06-27" = [[PyVal.vstr "2025-06-27", PyVal.vstr "999"]] := by
  refine ⟨rfl, ?_, by decide⟩
  exact (c5_empty_day [] [] okInfo emptyV1 [] (.ok [c5wRec]) "2025-06-27" c5wG
    ⟨[], [], []⟩ rfl rfl).1

theorem two_le_length_of_two_mem {α : Type} (l : List α) (a b : α)
    (ha : a ∈ l) (hb : b ∈ l) (hab : a ≠ b) : 2 ≤ l.length := by
  cases l with
  | nil => exact absurd ha (List.not_mem_nil a)
  | cons x t =>
    cases t with
    | nil =>
      rw [List.mem_singleton] at ha hb
      exact absurd (ha.trans hb.symm) hab
    | cons y s =>
      simp only [List.length_cons]
      omega

theorem two_le_headerWidth (g : Grid) : 2 ≤ headerWidth g := by
  refine two_le_length_of_two_mem _ "date" "item_id" ?_ ?_ (by decide)
  · exact mem_ensureHeaders_of_data _ "date" (by decide)
  · exact mem_ensureHeaders_of_data _ "item_id" (by decide)

theorem normWidth_get1 (w : Nat) (r : Row) (hw : 2 ≤ w) (hr : 2 ≤ r.length) :
    (normWidth w r).get? 1 = r.get? 1 := by
  cases r with
  | nil => simp at hr
  | cons a t =>
    cases t with
    | nil => simp at hr
    | cons b s =>
      simp only [normWidth]
      by_cases hl : (a :: b :: s).length < w
      · rw [if_pos hl]
        rfl
      · rw [if_neg hl]
        obtain ⟨k, rfl⟩ : ∃ k, w = k + 2 := ⟨w - 2, by omega⟩
        rfl

/-- C1 (amended): per-day idempotence of the reconciliation, for a day
whose computed row set is non-empty.  With unchanged upstream data the
computed output of the day is the same in both runs; the second write
phase reproduces the first grid exactly, so the sink's row set for the
date is identical after each run and consists of exactly one row per
active listing, in ascending identifier order, with no duplicate and no
stale rows.  (When no listing is active, the write phase is skipped and
stale rows of a previous run survive — see the counterexample — so the
one-row-per-active-listing property needs the non-empty assumption.) -/
theorem c1_idempotent_replace (titles : List (Int × String))
    (vasFlags : List (Int × List (String × Int))) (info : Int → HttpResp)
    (v1 : List Int → List StatsItem) (itemIds : List Int)
    (fr : FetchResult) (d : String) (g : Grid) (dout : DayOut)
    (hc : computeRowsOut titles vasFlags info v1 itemIds fr d = .ok dout)
    (hne : dout.rows ≠ []) :
    process_one_day titles vasFlags info v1 itemIds fr d g
        = .ok (writePhase g d dout.rows, dout.calls)
      ∧ writePhase (writePhase g d dout.rows) d dout.rows = writePhase g d dout.rows
      ∧ rowsForDate (writePhase (writePhase g d dout.rows) d dout.rows) d
          = rowsForDate (writePhase g d dout.rows) d
      ∧ (rowsForDate (writePhase g d dout.rows) d).map (fun r => r.get? 1)
          = dout.activeSorted.map (fun i => some (PyVal.vstr (toString i)))
      ∧ (rowsForDate (writePhase g d dout.rows) d).length = dout.activeSorted.length
      ∧ dout.activeSorted.Nodup := by
  obtain ⟨hnd, _, hlen, hshape, hmap⟩ :=
    computeRowsOut_spec titles vasFlags info v1 itemIds fr d dout hc
  have hh : ∀ r ∈ dout.rows, r.head? = some (PyVal.vstr d) :=
    fun r hr => (hshape r hr).1
  have hidem := writePhase_idem g d dout.rows hne hh
  have hrfd := rowsForDate_writePhase g d dout.rows hne hh
  refine ⟨by simp only [process_one_day, hc], hidem, by rw [hidem], ?_, ?_, hnd⟩
  · rw [hrfd]
    have hw2 : 2 ≤ headerWidth g := two_le_headerWidth g
    have heq : (dout.rows.map (normWidth (headerWidth g))).map (fun r => r.get? 1)
        = dout.rows.map (fun r => r.get? 1) := by
      generalize hW : headerWidth g = W at hw2 ⊢
      rw [List.map_map]
      refine List.map_congr_left ?_
      intro r hr
      exact normWidth_get1 W r hw2 (by have := (hshape r hr).2; omega)
    rw [heq, hmap]
  · rw [hrfd]
    simp [hlen]

/-- Counterexample grid for the unamended idempotence claim: one stale
data row dated 2025-06-27 from some earlier state of the sink. -/
def c1CexG : Grid :=
  [[PyVal.vstr "date"],
   [PyVal.vstr "2025-06-27", PyVal.vstr "999"]]

/-- Counterexample fetch outcome: the primary fetch succeeds, but its
only record is dated 2025-06-26, so no listing is active on
2025-06-27. -/
def c1CexFr : FetchResult :=
  .ok [[("itemId", PyVal.vnum 7), ("date", PyVal.vstr "2025-06-26")]]

/-- C1 counterexample: with no active listing for the date, the day's
run (and equally any repetition of it) leaves a stale prior row in the
sink, so the sink does not hold exactly one row per active listing
(zero rows) as the claim asserts for every date. -/
theorem c1_idempotent_replace_counterexample :
    computeRowsOut [] [] okInfo emptyV1 [] c1CexFr "2025-06-27"
        = .ok ⟨[], [], []⟩
      ∧ process_one_day [] [] okInfo emptyV1 [] c1CexFr "2025-06-27" c1CexG
          = .ok (c1CexG, [])
      ∧ rowsForDate c1CexG "2025-06-27"
          = [[PyVal.vstr "2025-06-27", PyVal.vstr "999"]]
      ∧ ([] : List Int).length ≠ (rowsForDate c1CexG "2025-06-27").length := by
  exact ⟨rfl, rfl, by decide, by decide⟩

/-- Witness day input for the idempotence claim: one record active on
the target date, with a known title. -/
def c1wFr : FetchResult :=
  .ok [[("itemId", PyVal.vnum 7), ("date", PyVal.vstr "2025-06-27"),
        ("views", PyVal.vnum 4)]]

/-- Witness titles map. -/
def c1wTitles : List (Int × String) := [(7, "Listing seven")]

/-- Witness grid: a bare header row plus one stale row for the date. -/
def c1wG : Grid :=
  [[PyVal.vstr "date"],
   [PyVal.vstr "2025-06-27", PyVal.vstr "11"]]

/-- The day output computed by the witness day. -/
def c1wDout : DayOut :=
  match computeRowsOut c1wTitles [] okInfo emptyV1 [] c1wFr "2025-06-27" with
  | .ok dout => dout
  | .error _ => ⟨[], [], []⟩

theorem c1_idempotent_replace_witness :
    (computeRowsOut c1wTitles [] okInfo emptyV1 [] c1wFr "2025-06-27" = .ok c1wDout
        ∧ c1wDout.rows ≠ [])
      ∧ writePhase (writePhase c1wG "2025-06-27" c1wDout.rows) "2025-06-27" c1wDout.rows
          = writePhase c1wG "2025-06-27" c1wDout.rows
      ∧ c1wDout.activeSorted = [7] := by
  refine ⟨⟨rfl, by decide⟩, ?_, by decide⟩
  exact (c1_idempotent_replace c1wTitles [] okInfo emptyV1 [] c1wFr "2025-06-27"
    c1wG c1wDout rfl (by decide)).2.1

/-- C3 (amended): tier selection.  For every date, the fallback tier is
used exactly when the primary fetch raised an HTTP error or returned an
empty record list; otherwise the primary tier alone produces the rows.
The two branches are mutually exclusive, so the rows of one date come
from exactly one tier, and the selection for a date depends only on
that date's own fetch outcome (the grid accumulated from earlier dates
plays no part), so every date of a run attempts the primary tier
afresh. -/
theorem c3_tier_selection :
    (∀ fr : FetchResult,
      usesFallbackTier fr = true ↔ fr = .httpError ∨ fr = .ok [])
      ∧ (∀ (titles : List (Int × String)) (vasFlags : List (Int × List (String × Int)))
          (info : Int → HttpResp) (v1 : List Int → List StatsItem)
          (itemIds : List Int) (fr : FetchResult) (d : String),
          usesFallbackTier fr = false →
            computeRowsOut titles vasFlags info v1 itemIds fr d
              = primaryCompute titles vasFlags info ((profOf fr).getD []) d)
      ∧ (∀ (titles : List (Int × String)) (vasFlags : List (Int × List (String × Int)))
          (info : Int → HttpResp) (v1 : List Int → List StatsItem)
          (itemIds : List Int) (fr : FetchResult) (d : String),
          usesFallbackTier fr = true →
            computeRowsOut titles vasFlags info v1 itemIds fr d
              = fallbackCompute titles info v1 itemIds d)
      ∧ (∀ (titles : List (Int × String)) (vasFlags : List (Int × List (String × Int)))
          (info : Int → HttpResp) (v1 : List Int → List StatsItem)
          (itemIds : List Int) (fr : FetchResult) (d : String) (g g' : Grid),
          (process_one_day titles vasFlags info v1 itemIds fr d g).map Prod.snd
            = (process_one_day titles vasFlags info v1 itemIds fr d g').map Prod.snd) := by
  refine ⟨?_, ?_, ?_, ?_⟩
  · intro fr
    cases fr with
    | ok recs =>
      cases recs with
      | nil => simp [usesFallbackTier, profOf, profTruthy]
      | cons r t =>
        simp [usesFallbackTier, profOf, profTruthy]
    | httpError => simp [usesFallbackTier, profOf, profTruthy]
  · intro titles vasFlags info v1 itemIds fr d hf
    have hp : profTruthy (profOf fr) = true := by
      simpa [usesFallbackTier] using hf
    simp only [computeRowsOut]
    rw [if_pos hp]
  · intro titles vasFlags info v1 itemIds fr d hf
    have hp : profTruthy (profOf fr) = false := by
      simpa [usesFallbackTier] using hf
    simp only [computeRowsOut]
    rw [if_neg (by simp [hp])]
  · intro titles vasFlags info v1 itemIds fr d g g'
    simp only [process_one_day]
    cases computeRowsOut titles vasFlags info v1 itemIds fr d with
    | error e => rfl
    | ok dout => simp only [Except.map]

/-- C3 counterexample: a primary fetch that succeeds with an empty
record list (no HTTP error) nevertheless sends the day to the fallback
tier, contradicting the claim that the fallback is used only when the
primary request errors. -/
theorem c3_tier_selection_counterexample :
    usesFallbackTier (FetchResult.ok []) = true
      ∧ FetchResult.ok [] ≠ FetchResult.httpError
      ∧ computeRowsOut [] [] okInfo emptyV1 [] (FetchResult.ok []) "2025-06-27"
          = fallbackCompute [] okInfo emptyV1 [] "2025-06-27" := by
  exact ⟨rfl, by decide, rfl⟩

theorem c3_tier_selection_witness :
    (usesFallbackTier (FetchResult.ok [[("itemId", PyVal.vnum 7),
        ("date", PyVal.vstr "2025-06-27")]]) = false
      ∧ computeRowsOut [] [] okInfo emptyV1 []
          (FetchResult.ok [[("itemId", PyVal.vnum 7), ("date", PyVal.vstr "2025-06-27")]])
          "2025-06-27"
        = primaryCompute [] [] okInfo
            [[("itemId", PyVal.vnum 7), ("date", PyVal.vstr "2025-06-27")]] "2025-06-27")
      ∧ (usesFallbackTier .httpError = true
        ∧ computeRowsOut [] [] okInfo emptyV1 [] .httpError "2025-06-27"
            = fallbackCompute [] okInfo emptyV1 [] "2025-06-27") := by
  refine ⟨⟨by decide, ?_⟩, ⟨by decide, ?_⟩⟩
  · exact c3_tier_selection.2.1 [] [] okInfo emptyV1 []
      (FetchResult.ok [[("itemId", PyVal.vnum 7), ("date", PyVal.vstr "2025-06-27")]])
      "2025-06-27" (by decide)
  · exact c3_tier_selection.2.2.1 [] [] okInfo emptyV1 [] .httpError
      "2025-06-27" (by decide)

/-- C4: active-set correctness.  In the primary tier, an identifier is
in the day's active set exactly when some fetched record carries it
(int-converted from its itemId field) with a date chain equal to the
target date; in the fallback tier, exactly when some batch response
item carries it with a stat entry dated the target date.  Presence of a
record decides activity: metric values play no part, so an all-zero
record still activates its listing, and records of adjacent dates never
do. -/
theorem c4_active_set :
    (∀ (d : String) (recs : List Record) (st : AggState) (i : Int),
      processPrimary d recs initAgg = some st →
      (i ∈ st.active ↔ ∃ r ∈ recs, pyToIntOpt (aget r "itemId") = some i
        ∧ pyEqStr (recDate r) d = true))
      ∧ (∀ (v1 : List Int → List StatsItem) (d : String) (itemIds : List Int)
          (am : List (Int × V1Rec)) (i : Int),
          buildActiveMapV1 v1 d (chunkBatches itemIds) [] = some am →
          (memKey am i = true ↔ ∃ b ∈ chunkBatches itemIds,
            v1ItemActive (v1 (b.take 200)) d i)) := by
  constructor
  · intro d recs st i h
    have := processPrimary_active_iff d recs initAgg st h i
    simpa [initAgg] using this
  · intro v1 d itemIds am i h
    have := (buildActiveMapV1_spec v1 d (chunkBatches itemIds) [] am h).1 i
    simpa [memKey, aget] using this

/-- Witness records: an all-zero record for the target date (listing 7)
and a non-zero record for the adjacent date (listing 9). -/
def c4wRecs : List Record :=
  [ [("itemId", PyVal.vnum 7), ("date", PyVal.vstr "2025-06-27"),
     ("views", PyVal.vnum 0), ("impressions", PyVal.vnum 0)],
    [("itemId", PyVal.vnum 9), ("date", PyVal.vstr "2025-06-26"),
     ("views", PyVal.vnum 3)] ]

/-- The aggregation state of the witness records. -/
def c4wSt : AggState :=
  (processPrimary "2025-06-27" c4wRecs initAgg).getD initAgg

/-- Witness stats_v1 oracle: one item (listing 5) with a zero-valued
entry for the target date and an entry for the adjacent date. -/
def c4wV1 : List Int → List StatsItem := fun _ =>
  [⟨some (PyVal.vnum 5), none,
    [⟨"2025-06-27", some (PyVal.vnum 0), some (PyVal.vnum 0)⟩,
     ⟨"2025-06-26", some (PyVal.vnum 2), some (PyVal.vnum 1)⟩]⟩]

/-- The fallback active map of the witness oracle. -/
def c4wAm : List (Int × V1Rec) :=
  (buildActiveMapV1 c4wV1 "2025-06-27" (chunkBatches [5]) []).getD []

theorem c4_active_set_witness :
    processPrimary "2025-06-27" c4wRecs initAgg = some c4wSt
      ∧ 7 ∈ c4wSt.active
      ∧ 9 ∉ c4wSt.active
      ∧ buildActiveMapV1 c4wV1 "2025-06-27" (chunkBatches [5]) [] = some c4wAm
      ∧ memKey c4wAm 5 = true := by
  refine ⟨rfl, ?_, ?_, rfl, ?_⟩
  · exact (c4_active_set.1 "2025-06-27" c4wRecs c4wSt 7 rfl).mpr (by decide)
  · intro h9
    have := (c4_active_set.1 "2025-06-27" c4wRecs c4wSt 9 rfl).mp h9
    revert this
    decide
  · refine (c4_active_set.2 c4wV1 "2025-06-27" [5] c4wAm 5 rfl).mpr ?_
    refine ⟨[5], by decide, ?_⟩
    exact ⟨⟨some (PyVal.vnum 5), none,
      [⟨"2025-06-27", some (PyVal.vnum 0), some (PyVal.vnum 0)⟩,
       ⟨"2025-06-26", some (PyVal.vnum 2), some (PyVal.vnum 1)⟩]⟩,
      by decide, by decide, by decide,
      ⟨"2025-06-27", some (PyVal.vnum 0), some (PyVal.vnum 0)⟩, by decide, rfl⟩

/-- C9: primary-tier duplicate aggregation.  When several records of the
requested date share one listing identifier, a metric key whose values
are all numeric (an absent field counting as 0) ends up holding the sum
of the values, while a non-numeric value in the final record wins
outright, whatever came before it. -/
theorem c9_duplicate_aggregation (d : String) (iid : Int) (k : String)
    (recs : List Record) (st : AggState)
    (hk : k ∈ PROFILE_METRICS)
    (hids : ∀ r ∈ recs, pyToIntOpt (aget r "itemId") = some iid)
    (hdts : ∀ r ∈ recs, pyEqStr (recDate r) d = true)
    (hproc : processPrimary d recs initAgg = some st) :
    ((∀ r ∈ recs, (agetD r k (.vnum 0)).isNum = true) → recs ≠ [] →
      aget (agetD st.agg iid []) k
        = some (.vnum ((recs.map (fun r => pyNumOf (agetD r k (.vnum 0)))).sum)))
      ∧ (∀ (l : List Record) (rl : Record) (s : String),
          recs = l ++ [rl] → agetD rl k (.vnum 0) = .vstr s →
          aget (agetD st.agg iid []) k = some (.vstr s)) := by
  constructor
  · intro hnum hne
    obtain ⟨w, hw1, hw2⟩ :=
      processPrimary_agg_fold d iid k hk recs hids hdts initAgg st hproc hne
    have hstart : agetD (agetD initAgg.agg iid []) k (.vnum 0) = .vnum 0 := rfl
    rw [hstart] at hw1
    have hvals : ∀ v ∈ recs.map (fun r => agetD r k (.vnum 0)), v.isNum = true := by
      intro v hv
      obtain ⟨r, hr, rfl⟩ := List.mem_map.mp hv
      exact hnum r hr
    rw [aggKeyFold_num _ 0 hvals] at hw1
    obtain rfl : PyVal.vnum (0 + ((recs.map (fun r => agetD r k (.vnum 0))).map pyNumOf).sum) = w :=
      Option.some.inj hw1
    rw [hw2, List.map_map, zero_add]
    exact congrArg (fun z => some (PyVal.vnum z))
      (congrArg List.sum (List.map_congr_left (fun a _ => rfl)))
  · intro l rl s hcat hval
    subst hcat
    rw [processPrimary_append] at hproc
    cases hl : processPrimary d l initAgg with
    | none => rw [hl] at hproc; exact absurd hproc (by simp)
    | some st1 =>
      rw [hl] at hproc
      dsimp only at hproc
      simp only [processPrimary] at hproc
      cases hrl : processRecord d st1 rl with
      | none => rw [hrl] at hproc; exact absurd hproc (by simp)
      | some st2 =>
        rw [hrl] at hproc
        have hst : st2 = st := Option.some.inj hproc
        obtain ⟨w, hw1, hw2⟩ :=
          processRecord_agg_at d st1 st2 rl iid k
            (hids rl (by simp)) (hdts rl (by simp)) hk hrl
        rw [hval] at hw1
        obtain rfl : PyVal.vstr s = w := Option.some.inj hw1
        rw [← hst]
        exact hw2

/-- Witness records for the numeric-summation part: duplicates of
listing 7 on the date, views 3 and 4. -/
def c9wRecs : List Record :=
  [ [("itemId", PyVal.vnum 7), ("date", PyVal.vstr "2025-06-27"),
     ("views", PyVal.vnum 3)],
    [("itemId", PyVal.vnum 7), ("date", PyVal.vstr "2025-06-27"),
     ("views", PyVal.vnum 4)] ]

/-- The aggregation state of the summation witness. -/
def c9wSt : AggState :=
  (processPrimary "2025-06-27" c9wRecs initAgg).getD initAgg

/-- Witness records for the last-writer-wins part: a numeric conversion
value overwritten by a percentage string in the later record. -/
def c9wRecs2 : List Record :=
  [ [("itemId", PyVal.vnum 7), ("date", PyVal.vstr "2025-06-27"),
     ("impressionsToViewsConversion", PyVal.vstr "2%")],
    [("itemId", PyVal.vnum 7), ("date", PyVal.vstr "2025-06-27"),
     ("impressionsToViewsConversion", PyVal.vstr "5%")] ]

/-- The aggregation state of the overwrite witness. -/
def c9wSt2 : AggState :=
  (processPrimary "2025-06-27" c9wRecs2 initAgg).getD initAgg

theorem c9_duplicate_aggregation_witness :
    processPrimary "2025-06-27" c9wRecs initAgg = some c9wSt
      ∧ aget (agetD c9wSt.agg 7 []) "views" = some (PyVal.vnum 7)
      ∧ processPrimary "2025-06-27" c9wRecs2 initAgg = some c9wSt2
      ∧ aget (agetD c9wSt2.agg 7 []) "impressionsToViewsConversion"
          = some (PyVal.vstr "5%") := by
  refine ⟨rfl, ?_, rfl, ?_⟩
  · have h := (c9_duplicate_aggregation "2025-06-27" 7 "views" c9wRecs c9wSt
      (by decide) (by decide) (by decide) rfl).1 (by decide) (by decide)
    exact h.trans (by decide)
  · exact (c9_duplicate_aggregation "2025-06-27" 7 "impressionsToViewsConversion"
      c9wRecs2 c9wSt2 (by decide) (by decide) (by decide) rfl).2
      [[("itemId", PyVal.vnum 7), ("date", PyVal.vstr "2025-06-27"),
        ("impressionsToViewsConversion", PyVal.vstr "2%")]]
      [("itemId", PyVal.vnum 7), ("date", PyVal.vstr "2025-06-27"),
        ("impressionsToViewsConversion", PyVal.vstr "5%")] "5%" rfl rfl

/-- Record admitted by the fetcher although its identifier sits only
under the item_id key, so the reconciler's itemId read gets None. -/
def c10Bad : Record :=
  [("item_id", PyVal.vnum 5), ("date", PyVal.vstr "2025-06-27")]

/-- C10 (amended): identifier-key safety.  Per-record processing of the
primary tier raises no exception provided every record carries an
int-convertible identifier under the itemId key and every tracked
metric value present in a record is numeric (a non-numeric value stored
by the overwrite path makes a later numeric addition onto it raise, see
the counterexample, so the numeric condition cannot be dropped).  The
fetcher, however, also retains records whose identifier appears only
under item_id (or itemID), and on those the reconciler's itemId read
raises. -/
theorem c10_identifier_safety :
    (∀ (d : String) (recs : List Record),
      (∀ r ∈ recs, (pyToIntOpt (aget r "itemId")).isSome = true) →
      (∀ r ∈ recs, ∀ k ∈ PROFILE_METRICS, (agetD r k (.vnum 0)).isNum = true) →
      (processPrimary d recs initAgg).isSome = true)
      ∧ profRetains c10Bad = true
      ∧ pyToIntOpt (aget c10Bad "itemId") = none
      ∧ processRecord "2025-06-27" initAgg c10Bad = none := by
  refine ⟨?_, by decide, by decide, by decide⟩
  intro d recs h1 h2
  obtain ⟨st', hst'⟩ := processPrimary_total d recs h1 h2 initAgg initAgg_numAgg
  rw [hst']
  rfl

/-- First record of the safety counterexample: a percentage string
under the impressions key. -/
def c10r1 : Record :=
  [("itemId", PyVal.vnum 1), ("date", PyVal.vstr "2025-06-27"),
   ("impressions", PyVal.vstr "5%")]

/-- Second record of the safety counterexample: a numeric value under
the same key for the same listing and date. -/
def c10r2 : Record :=
  [("itemId", PyVal.vnum 1), ("date", PyVal.vstr "2025-06-27"),
   ("impressions", PyVal.vnum 3)]

/-- C10 counterexample: both records are retained by the fetcher and
both carry an int-convertible identifier under itemId, yet processing
raises (a number is added onto a stored string), so the claimed
precondition does not guarantee safety. -/
theorem c10_identifier_safety_counterexample :
    profRetains c10r1 = true ∧ profRetains c10r2 = true
      ∧ (pyToIntOpt (aget c10r1 "itemId")).isSome = true
      ∧ (pyToIntOpt (aget c10r2 "itemId")).isSome = true
      ∧ processPrimary "2025-06-27" [c10r1, c10r2] initAgg = none := by
  exact ⟨by decide, by decide, by decide, by decide, by decide⟩

theorem c10_identifier_safety_witness :
    ((∀ r ∈ c9wRecs, (pyToIntOpt (aget r "itemId")).isSome = true)
      ∧ (∀ r ∈ c9wRecs, ∀ k ∈ PROFILE_METRICS, (agetD r k (.vnum 0)).isNum = true))
      ∧ (processPrimary "2025-06-27" c9wRecs initAgg).isSome = true := by
  refine ⟨⟨by decide, by decide⟩, ?_⟩
  exact c10_identifier_safety.1 "2025-06-27" c9wRecs (by decide) (by decide)

theorem buildRowsPrimary_all404 (d : String) (titles : List (Int × String))
    (vasFlags : List (Int × List (String × Int))) (info : Int → HttpResp)
    (h404 : ∀ i, (info i).status = 404) :
    ∀ (L : List Int) (st : CacheSt) (agg : List (Int × Record)),
      (buildRowsPrimary d titles vasFlags info L st agg).isOk = true := by
  have hfetch : ∀ st iid, ∃ st', fetchCached info st iid = .ok st' := by
    intro st iid
    simp only [fetchCached]
    by_cases hm : memKey st.cache iid = true
    · rw [if_pos hm]
      exact ⟨st, rfl⟩
    · rw [if_neg hm]
      have : get_item_info (info iid) = .ok ItemInfo.empty := by
        simp [get_item_info, h404 iid]
      rw [this]
      exact ⟨_, rfl⟩
  intro L
  induction L with
  | nil =>
    intro st agg
    rfl
  | cons iid rest ih =>
    intro st agg
    have hrow : ∃ p, buildRowPrimary d titles vasFlags info st agg iid = .ok p := by
      simp only [buildRowPrimary, titlePhase]
      by_cases h0 : agetD titles iid "" = ""
      · rw [if_pos h0]
        obtain ⟨st1, hst1⟩ := hfetch st iid
        rw [hst1]
        dsimp only
        obtain ⟨st2, hst2⟩ := hfetch st1 iid
        rw [hst2]
        exact ⟨_, rfl⟩
      · rw [if_neg h0]
        dsimp only
        obtain ⟨st2, hst2⟩ := hfetch st iid
        rw [hst2]
        exact ⟨_, rfl⟩
    obtain ⟨p, hp⟩ := hrow
    simp only [buildRowsPrimary, hp]
    obtain ⟨prow, pst⟩ := p
    dsimp only
    have := ih pst agg
    cases hb : buildRowsPrimary d titles vasFlags info rest pst agg with
    | error e => rw [hb] at this; exact absurd this (by simp [Except.isOk, Except.toBool])
    | ok q => rfl

/-- C7 (amended): error propagation.  A 404 detail response is
recovered locally as an empty result (and an all-404 detail endpoint
never fails a primary row build); any other detail-lookup status of 400
or above — after the transport retries, whose final response the status
models — surfaces as the raised status.  An HTTP failure of the primary
profile-stats fetch, however, is caught by the surrounding try/except
and merely sends that date to the fallback tier, with the run
continuing (see the counterexample), so it is exempt from the
every-other-failure rule.  Every error that does escape a day's
computation aborts that day before anything is written and aborts the
whole multi-day run. -/
theorem c7_error_propagation :
    (∀ r : HttpResp, r.status = 404 → get_item_info r = .ok ItemInfo.empty)
      ∧ (∀ r : HttpResp, 400 ≤ r.status → r.status ≠ 404 → get_item_info r = .error r.status)
      ∧ (∀ r : HttpResp, r.status < 400 → get_item_info r = .ok r.body)
      ∧ (∀ (d : String) (titles : List (Int × String))
          (vasFlags : List (Int × List (String × Int))) (info : Int → HttpResp),
          (∀ i, (info i).status = 404) →
          ∀ (L : List Int) (st : CacheSt) (agg : List (Int × Record)),
            (buildRowsPrimary d titles vasFlags info L st agg).isOk = true)
      ∧ (∀ (titles : List (Int × String)) (vasFlags : List (Int × List (String × Int)))
          (info : Int → HttpResp) (v1 : List Int → List StatsItem)
          (itemIds : List Int) (fr : FetchResult) (d : String) (g : Grid) (e : PErr),
          computeRowsOut titles vasFlags info v1 itemIds fr d = .error e →
          process_one_day titles vasFlags info v1 itemIds fr d g = .error e)
      ∧ (∀ (titles : List (Int × String)) (vasFlags : List (Int × List (String × Int)))
          (info : Int → HttpResp) (v1 : List Int → List StatsItem)
          (itemIds : List Int) (d : String) (fr : FetchResult)
          (rest : List (String × FetchResult)) (g : Grid) (e : PErr),
          process_one_day titles vasFlags info v1 itemIds fr d g = .error e →
          runDays titles vasFlags info v1 itemIds ((d, fr) :: rest) g = .error e)
      ∧ (∀ (titles : List (Int × String)) (vasFlags : List (Int × List (String × Int)))
          (info : Int → HttpResp) (v1 : List Int → List StatsItem)
          (itemIds : List Int) (d : String) (g : Grid),
          process_one_day titles vasFlags info v1 itemIds .httpError d g
            = match fallbackCompute titles info v1 itemIds d with
              | .error e => .error e
              | .ok dout => .ok (writePhase g d dout.rows, dout.calls)) := by
  refine ⟨?_, ?_, ?_, ?_, ?_, ?_, ?_⟩
  · intro r h
    simp [get_item_info, h]
  · intro r h1 h2
    simp [get_item_info, h2, h1]
  · intro r h
    have h404 : r.status ≠ 404 := by omega
    have hlt : ¬ 400 ≤ r.status := by omega
    simp [get_item_info, h404, hlt]
  · exact buildRowsPrimary_all404
  · intro titles vasFlags info v1 itemIds fr d g e h
    simp only [process_one_day, h]
  · intro titles vasFlags info v1 itemIds d fr rest g e h
    simp only [runDays, h]
  · intro titles vasFlags info v1 itemIds d g
    have hcomp : computeRowsOut titles vasFlags info v1 itemIds .httpError d
        = fallbackCompute titles info v1 itemIds d := by
      simp only [computeRowsOut, profOf, profTruthy]
      rw [if_neg (by simp)]
    simp only [process_one_day, hcomp]

/-- Item-info oracle answering 500 to every lookup. -/
def err500Info : Int → HttpResp := fun _ => ⟨500, ItemInfo.empty⟩

/-- Witness day whose primary records activate listing 7 with no known
title, so the detail lookup happens and its 500 aborts the day. -/
def c7wFr : FetchResult :=
  .ok [[("itemId", PyVal.vnum 7), ("date", PyVal.vstr "2025-06-27")]]

theorem c7_error_propagation_witness :
    get_item_info ⟨404, ⟨"body", []⟩⟩ = .ok ItemInfo.empty
      ∧ get_item_info ⟨500, ⟨"body", []⟩⟩ = .error 500
      ∧ computeRowsOut [] [] err500Info emptyV1 [] c7wFr "2025-06-27"
          = .error (.http 500)
      ∧ process_one_day [] [] err500Info emptyV1 [] c7wFr "2025-06-27" [[PyVal.vstr "date"]]
          = .error (.http 500)
      ∧ runDays [] [] err500Info emptyV1 [] [("2025-06-27", c7wFr)] [[PyVal.vstr "date"]]
          = .error (.http 500) := by
  refine ⟨?_, ?_, rfl, ?_, ?_⟩
  · exact c7_error_propagation.1 ⟨404, ⟨"body", []⟩⟩ rfl
  · exact c7_error_propagation.2.1 ⟨500, ⟨"body", []⟩⟩ (by decide) (by decide)
  · exact c7_error_propagation.2.2.2.2.1 [] [] err500Info emptyV1 [] c7wFr
      "2025-06-27" [[PyVal.vstr "date"]] (.http 500) rfl
  · refine c7_error_propagation.2.2.2.2.2.1 [] [] err500Info emptyV1 []
      "2025-06-27" c7wFr [] [[PyVal.vstr "date"]] (.http 500) ?_
    exact c7_error_propagation.2.2.2.2.1 [] [] err500Info emptyV1 [] c7wFr
      "2025-06-27" [[PyVal.vstr "date"]] (.http 500) rfl

/-- C7 counterexample: an HTTP failure of the primary profile-stats
fetch (any non-404 status of 400 or above surviving the retries — the
caught case of lines 390-394, modelled by FetchResult.httpError) does
not terminate the run: the date is rerouted to the fallback tier and
processing completes, here across two such days in a row, contradicting
the claim that every non-404 HTTP failure of 400 or above surfaces as
an exception and terminates the run. -/
theorem c7_error_propagation_counterexample :
    usesFallbackTier FetchResult.httpError = true
      ∧ process_one_day [] [] okInfo emptyV1 [] FetchResult.httpError "2025-06-27"
          [[PyVal.vstr "date"]] = .ok ([[PyVal.vstr "date"]], [])
      ∧ runDays [] [] okInfo emptyV1 []
          [("2025-06-27", FetchResult.httpError), ("2025-06-28", FetchResult.httpError)]
          [[PyVal.vstr "date"]] = .ok ([[PyVal.vstr "date"]], []) := by
  exact ⟨rfl, rfl, rfl⟩

/-- Item-info oracle used by the memoization artifacts: always 200 with
a fixed title and no VAS list. -/
def c6Info : Int → HttpResp := fun _ => ⟨200, ⟨"Title", []⟩⟩

/-- stats_v1 oracle activating listing 7 on 2025-06-27. -/
def c6V1 : List Int → List StatsItem := fun _ =>
  [⟨some (PyVal.vnum 7), none,
    [⟨"2025-06-27", some (PyVal.vnum 1), some (PyVal.vnum 0)⟩]⟩]

/-- The item-info call log of a fallback day for listing 7 with no
directory title. -/
def c6FallbackCalls : List Int :=
  match fallbackCompute [] c6Info c6V1 [7] "2025-06-27" with
  | .ok dout => dout.calls
  | .error _ => []

/-- Primary fetch outcome activating listing 7 on 2025-06-27. -/
def c6Fr1 : FetchResult :=
  .ok [[("itemId", PyVal.vnum 7), ("date", PyVal.vstr "2025-06-27")]]

/-- Primary fetch outcome activating listing 7 on 2025-06-28. -/
def c6Fr2 : FetchResult :=
  .ok [[("itemId", PyVal.vnum 7), ("date", PyVal.vstr "2025-06-28")]]

/-- The combined item-info call log of a two-day backfill over the same
listing in the primary tier. -/
def c6RunCalls : List Int :=
  match runDays [] [] c6Info c6V1 []
      [("2025-06-27", c6Fr1), ("2025-06-28", c6Fr2)] [[PyVal.vstr "date"]] with
  | .ok p => p.2
  | .error _ => []

/-- C6 (amended): listing-detail memoization.  Within the primary tier
of a single date, the detail endpoint is queried at most once per
listing (the per-date cache_info dictionary memoizes the first result);
but the cache is rebuilt for every date — a two-day backfill over the
same listing queries it once per day — and the fallback tier bypasses
the cache entirely, querying up to twice per listing within one date
(once for a missing title and once for the VAS snapshot). -/
theorem c6_memoization :
    (∀ (titles : List (Int × String)) (vasFlags : List (Int × List (String × Int)))
        (info : Int → HttpResp) (recs : List Record) (d : String) (dout : DayOut),
        primaryCompute titles vasFlags info recs d = .ok dout →
        dout.calls.Nodup ∧ ∀ i : Int, dout.calls.count i ≤ 1)
      ∧ c6FallbackCalls = [7, 7]
      ∧ c6RunCalls = [7, 7] := by
  refine ⟨?_, rfl, rfl⟩
  intro titles vasFlags info recs d dout h
  simp only [primaryCompute] at h
  cases hp : processPrimary d recs initAgg with
  | none => rw [hp] at h; exact absurd h (by simp)
  | some st =>
    rw [hp] at h
    dsimp only at h
    cases hb : buildRowsPrimary d titles vasFlags info (sortInts st.active) ⟨[], []⟩ st.agg with
    | error e => rw [hb] at h; exact absurd h (by simp)
    | ok p =>
      rw [hb] at h
      obtain ⟨rows, cst⟩ := p
      dsimp only at h
      obtain rfl : (⟨rows, sortInts st.active, cst.calls⟩ : DayOut) = dout :=
        Except.ok.inj h
      have hinv : cacheInv cst :=
        (buildRowsPrimary_spec d titles vasFlags info (sortInts st.active)
          ⟨[], []⟩ st.agg rows cst hb).2.2.2 ⟨List.nodup_nil, by simp⟩
      exact ⟨hinv.1, fun i => List.nodup_iff_count_le_one.mp hinv.1 i⟩

/-- C6 counterexample: on a fallback day, listing 7 with no directory
title is queried twice in one run, refuting the at-most-once-per-run
claim (the two-day primary log of the amended theorem refutes the
across-dates half as well). -/
theorem c6_memoization_counterexample :
    c6FallbackCalls = [7, 7]
      ∧ ¬ (c6FallbackCalls.count 7 ≤ 1)
      ∧ c6RunCalls.count 7 = 2 := by
  exact ⟨rfl, by decide, by decide⟩

theorem c6_memoization_witness :
    primaryCompute c1wTitles [] c6Info
        [[("itemId", PyVal.vnum 7), ("date", PyVal.vstr "2025-06-27")]]
        "2025-06-27"
        = .ok ⟨[mkPrimaryRow "2025-06-27" 7 "Listing seven" (agetD
            ((processPrimary "2025-06-27"
              [[("itemId", PyVal.vnum 7), ("date", PyVal.vstr "2025-06-27")]]
              initAgg).getD initAgg).agg 7 []) [] defaultFlags], [7], [7]⟩
      ∧ ([7] : List Int).Nodup := by
  constructor
  · rfl
  · exact (c6_memoization.1 c1wTitles [] c6Info
      [[("itemId", PyVal.vnum 7), ("date", PyVal.vstr "2025-06-27")]]
      "2025-06-27" _ rfl).1

/-- One synthetic page of n listing records with identifiers base,
base+1, ... -/
def c8Page (base : Int) (n : Nat) : List Record :=
  (List.range n).map (fun j => [("id", PyVal.vnum (base + Int.ofNat j))])

/-- Page oracle of the pagination claim: three full pages of 100, a
fourth page of 37, and — were the loop to keep going — further full
pages of fresh identifiers. -/
def c8Pages : Nat → List Record
  | 1 => c8Page 1 100
  | 2 => c8Page 101 100
  | 3 => c8Page 201 100
  | 4 => c8Page 301 37
  | _ => c8Page 1000 100

theorem listPagesLoop_ceiling (pages : Nat → List Record) (perPage : Nat) :
    ∀ (fuel page : Nat), page ≤ 200 →
      ∀ p ∈ (listPagesLoop pages perPage fuel page).queried, p ≤ 200 := by
  intro fuel
  induction fuel with
  | zero =>
    intro page _ p hp
    exact absurd hp (List.not_mem_nil p)
  | succ n ih =>
    intro page hpage p hp
    simp only [listPagesLoop] at hp
    by_cases he : (pages page).isEmpty
    · rw [if_pos he] at hp
      rw [List.mem_singleton] at hp
      omega
    · rw [if_neg he] at hp
      by_cases hshort : (pages page).length < perPage
      · rw [if_pos hshort] at hp
        rw [List.mem_singleton] at hp
        omega
      · rw [if_neg hshort] at hp
        by_cases hcap : 200 < page + 1
        · rw [if_pos hcap] at hp
          rw [List.mem_singleton] at hp
          omega
        · rw [if_neg hcap] at hp
          rcases List.mem_cons.mp hp with rfl | hp'
          · omega
          · exact ih (page + 1) (by omega) p hp'

set_option maxRecDepth 100000 in
set_option maxHeartbeats 1000000 in
/-- C8: pagination termination and normalization.  On a response
sequence of page sizes 100, 100, 100, 37 with page size 100 (later
pages would be full again), the enumeration requests exactly pages 1-4
— stopping at the short page — and returns 337 identifiers; in
general the returned identifier list is deduplicated and sorted, and
the loop guard never requests a page number beyond the hard ceiling of
200. -/
theorem c8_pagination :
    (listItemsRun c8Pages 100).queried = [1, 2, 3, 4]
      ∧ (list_items_ids c8Pages 100).length = 337
      ∧ (∀ (pages : Nat → List Record) (perPage : Nat),
          (list_items_ids pages perPage).Nodup
            ∧ List.Sorted (· ≤ ·) (list_items_ids pages perPage))
      ∧ (∀ (pages : Nat → List Record) (perPage : Nat),
          ∀ p ∈ (listItemsRun pages perPage).queried, p ≤ 200) := by
  refine ⟨by decide, ?_, ?_, ?_⟩
  · decide
  · intro pages perPage
    constructor
    · exact sortInts_nodup _ (List.nodup_dedup _)
    · exact sortInts_sorted _
  · intro pages perPage
    exact listPagesLoop_ceiling pages perPage 200 1 (by omega)

theorem c8_pagination_witness :
    (list_items_ids c8Pages 100).Nodup
      ∧ List.Sorted (· ≤ ·) (list_items_ids c8Pages 100)
      ∧ (1 ∈ (listItemsRun c8Pages 100).queried → (1 : Nat) ≤ 200)
      ∧ (1 ∈ (listItemsRun c8Pages 100).queried) := by
  refine ⟨(c8_pagination.2.2.1 c8Pages 100).1, (c8_pagination.2.2.1 c8Pages 100).2,
    c8_pagination.2.2.2 c8Pages 100 1, by decide⟩

end Avito
